import Mathlib

/-!
Verification of the marcellus / OpenSilicon layout-database core.

This file is a shallow embedding, in Lean 4, of the parts of the repository
that the specification's claims are about:

* `opensilicon-core/src/geometry.rs` — points, bounding boxes, primitives;
* `opensilicon-core/src/cell.rs` — cells, instances, pins;
* `opensilicon-core/src/layer.rs` — layers and the layer stack;
* `opensilicon-core/src/database.rs` — the layout database;
* `opensilicon-core/src/commands.rs` — the undo/redo command journal;
* `opensilicon-core/src/spatial.rs` — the spatial index wrapper;
* `opensilicon-io/src/gds.rs` — the GDS-II binary reader and writer.

Modelling conventions:

* Rust `f64` values are modelled as exact rationals (`ℚ`).  All arithmetic
  the claims depend on is either exact in `f64` as well (power-of-two
  scaling, integer-valued coordinates) or is covered by tolerances that
  dwarf `f64` rounding, so the rational model is faithful for the claims
  settled here.  Casts `f64 as i32` / `as u64` are modelled explicitly as
  saturating truncation toward zero, as defined for Rust `as` casts.
* Rust `String` values are modelled as their byte sequences (`List Nat`,
  each element `< 256`); `Uuid` values are modelled as `Nat` (the random
  generator `Uuid::new_v4` becomes an explicit fresh-id supply, which is
  faithful up to the negligible collision probability of v4 UUIDs).
* `HashMap<CellId, Cell>` is modelled as an association list; lookups and
  in-place mutation target the first entry with the given key, matching a
  hash map (whose keys are unique) on every state reachable via the API.
* Byte streams (`Read + Seek` / `Write`) are modelled as `List Nat`; the
  reader's unbounded loops take an explicit fuel argument, re-seeded at
  every call site with the length of the remaining input, which bounds the
  number of records a loop can consume (each record consumes at least four
  bytes, so the fuel never runs out on inputs the Rust loops terminate on).
-/

namespace Marcellus

/-! ## List helpers (plumbing shared by the embedding and the proofs) -/

/-- Replace the element at a position, leaving the list unchanged when the
position is out of range (the semantics of the guarded in-place updates in
the Rust sources). -/
def modAt (f : α → α) : Nat → List α → List α
  | _, [] => []
  | 0, a :: l => f a :: l
  | n + 1, a :: l => a :: modAt f n l

/-- Vec::insert semantics for an index that is at most the length. -/
def insertAt : Nat → α → List α → List α
  | 0, a, l => a :: l
  | _ + 1, a, [] => [a]
  | n + 1, a, b :: l => b :: insertAt n a l

theorem modAt_nil (f : α → α) (n : Nat) : modAt f n ([] : List α) = [] := by
  cases n <;> rfl

theorem modAt_length (f : α → α) (n : Nat) (l : List α) :
    (modAt f n l).length = l.length := by
  induction l generalizing n with
  | nil => simp [modAt_nil]
  | cons a l ih => cases n with
    | zero => rfl
    | succ n => simp [modAt, ih]

theorem modAt_modAt_same (f g : α → α) (n : Nat) (l : List α) :
    modAt f n (modAt g n l) = modAt (fun a => f (g a)) n l := by
  induction l generalizing n with
  | nil => simp [modAt_nil]
  | cons a l ih => cases n with
    | zero => rfl
    | succ n => simp [modAt, ih]

theorem modAt_comm (f g : α → α) {i j : Nat} (h : i ≠ j) (l : List α) :
    modAt f i (modAt g j l) = modAt g j (modAt f i l) := by
  induction l generalizing i j with
  | nil => simp [modAt_nil]
  | cons a l ih =>
    cases i with
    | zero => cases j with
      | zero => exact absurd rfl h
      | succ j => rfl
    | succ i => cases j with
      | zero => rfl
      | succ j => simp [modAt, @ih i j (by omega)]

theorem modAt_congrFun {f g : α → α} (h : ∀ a, f a = g a) (n : Nat) (l : List α) :
    modAt f n l = modAt g n l := by
  induction l generalizing n with
  | nil => simp [modAt_nil]
  | cons a l ih => cases n with
    | zero => simp [modAt, h]
    | succ n => simp [modAt, ih]

theorem modAt_id (f : α → α) (h : ∀ a, f a = a) (n : Nat) (l : List α) :
    modAt f n l = l := by
  induction l generalizing n with
  | nil => simp [modAt_nil]
  | cons a l ih => cases n with
    | zero => simp [modAt, h]
    | succ n => simp [modAt, ih]

theorem eraseIdx_append_last (l : List α) (g : α) :
    (l ++ [g]).eraseIdx l.length = l := by
  induction l with
  | nil => rfl
  | cons a l ih => simp [List.eraseIdx, ih]

theorem insertAt_eraseIdx (l : List α) (i : Nat) (h : i < l.length) :
    insertAt i (l.get ⟨i, h⟩) (l.eraseIdx i) = l := by
  induction l generalizing i with
  | nil => simp at h
  | cons a l ih =>
    cases i with
    | zero => rfl
    | succ i =>
      simp only [List.eraseIdx, insertAt, List.get]
      rw [ih i (by simpa using h)]

theorem take_append_self (l r : List α) : (l ++ r).take l.length = l := by
  induction l with
  | nil => rfl
  | cons a l ih => simp [ih]

theorem drop_append_self (l r : List α) : (l ++ r).drop l.length = r := by
  induction l with
  | nil => rfl
  | cons a l ih => simp [ih]

/-! ## Geometry kernel (`opensilicon-core/src/geometry.rs`) -/

/-- Layer identifier, `pub type LayerId = u32` in `layer.rs`. -/
abbrev LayerId := Nat

/-- A 2D point in layout coordinates (`Point` in `geometry.rs`); the two
`f64` fields become exact rationals. -/
structure Point where
  x : ℚ
  y : ℚ
deriving DecidableEq, Repr

namespace Point

/-- Point::new. -/
def new (x y : ℚ) : Point := ⟨x, y⟩

/-- Point::translate. -/
def translate (p : Point) (dx dy : ℚ) : Point := ⟨p.x + dx, p.y + dy⟩

end Point

/-- An axis-aligned bounding box (`BBox` in `geometry.rs`). -/
structure BBox where
  min : Point
  max : Point
deriving DecidableEq, Repr

namespace BBox

/-- BBox::new. -/
def new (min max : Point) : BBox := ⟨min, max⟩

/-- BBox::from_points: fold of componentwise min/max, `None` on empty input.
The Rust code starts from `f64::MAX` / `f64::MIN` sentinels and folds; for a
nonempty list this computes exactly the componentwise minima and maxima, which
is what the fold below computes. -/
def from_points (points : List Point) : Option BBox :=
  match points with
  | [] => none
  | p :: rest =>
    some (rest.foldl
      (fun bb q =>
        ⟨⟨Min.min bb.min.x q.x, Min.min bb.min.y q.y⟩,
         ⟨Max.max bb.max.x q.x, Max.max bb.max.y q.y⟩⟩)
      ⟨p, p⟩)

/-- BBox::contains_point (boundary-inclusive on all four sides). -/
def contains_point (bb : BBox) (p : Point) : Bool :=
  decide (bb.min.x ≤ p.x) && decide (p.x ≤ bb.max.x) &&
  decide (bb.min.y ≤ p.y) && decide (p.y ≤ bb.max.y)

/-- BBox::intersects (boundary-inclusive interval-overlap test per axis). -/
def intersects (bb other : BBox) : Bool :=
  decide (bb.min.x ≤ other.max.x) && decide (bb.max.x ≥ other.min.x) &&
  decide (bb.min.y ≤ other.max.y) && decide (bb.max.y ≥ other.min.y)

/-- BBox::union. -/
def union (bb other : BBox) : BBox :=
  ⟨⟨Min.min bb.min.x other.min.x, Min.min bb.min.y other.min.y⟩,
   ⟨Max.max bb.max.x other.max.x, Max.max bb.max.y other.max.y⟩⟩

end BBox

/-- A rectangle (`Rect` in `geometry.rs`). -/
structure Rect where
  layer_id : LayerId
  lower_left : Point
  upper_right : Point
deriving DecidableEq, Repr

namespace Rect

/-- Rect::new normalizes the two corners so lower-left ≤ upper-right. -/
def new (layer_id : LayerId) (x1 y1 x2 y2 : ℚ) : Rect :=
  ⟨layer_id, ⟨Min.min x1 x2, Min.min y1 y2⟩, ⟨Max.max x1 x2, Max.max y1 y2⟩⟩

/-- Rect::bbox. -/
def bbox (r : Rect) : BBox := ⟨r.lower_left, r.upper_right⟩

end Rect

/-- A polygon (`Polygon` in `geometry.rs`). -/
structure Polygon where
  layer_id : LayerId
  vertices : List Point
deriving DecidableEq, Repr

/-- Polygon::new. -/
def Polygon.new (layer_id : LayerId) (vertices : List Point) : Polygon :=
  ⟨layer_id, vertices⟩

/-- A path / wire (`Path` in `geometry.rs`). -/
structure Path where
  layer_id : LayerId
  points : List Point
  width : ℚ
deriving DecidableEq, Repr

/-- Path::new. -/
def Path.new (layer_id : LayerId) (points : List Point) (width : ℚ) : Path :=
  ⟨layer_id, points, width⟩

/-- A via connecting two layers (`Via` in `geometry.rs`). -/
structure Via where
  bottom_layer : LayerId
  top_layer : LayerId
  cut_layer : LayerId
  position : Point
  width : ℚ
  height : ℚ
deriving DecidableEq, Repr

/-- The closed sum of drawable primitives (`GeomPrimitive` in `geometry.rs`). -/
inductive GeomPrimitive where
  | rect (r : Rect)
  | polygon (p : Polygon)
  | path (p : Path)
  | via (v : Via)
deriving DecidableEq, Repr

namespace GeomPrimitive

/-- GeomPrimitive::layer_id — note that a via reports its `cut_layer`. -/
def layer_id : GeomPrimitive → LayerId
  | rect r => r.layer_id
  | polygon p => p.layer_id
  | path p => p.layer_id
  | via v => v.cut_layer

end GeomPrimitive

/-! ## Cell model (`opensilicon-core/src/cell.rs`) -/

/-- `pub type CellId = Uuid`, modelled as `Nat`. -/
abbrev CellId := Nat

/-- Placement transform for subcell instances (`Transform` in `cell.rs`). -/
structure Transform where
  offset : Point
  rotation : ℚ
  mirror_x : Bool
  scale : ℚ
deriving DecidableEq, Repr

/-- Transform::default — the identity placement. -/
def Transform.default : Transform := ⟨⟨0, 0⟩, 0, false, 1⟩

/-- A subcell reference (`CellInstance` in `cell.rs`).  The `id` field is a
fresh v4 UUID in Rust, supplied explicitly here. -/
structure CellInstance where
  id : Nat
  cell_id : CellId
  instance_name : List Nat
  transform : Transform
deriving DecidableEq, Repr

/-- Pin direction (`PinDirection` in `cell.rs`). -/
inductive PinDirection where
  | input
  | output
  | inout
  | power
  | ground
deriving DecidableEq, Repr

/-- A pin (`Pin` in `cell.rs`). -/
structure Pin where
  name : List Nat
  layer_id : LayerId
  shape : GeomPrimitive
  direction : PinDirection
deriving DecidableEq, Repr

/-- A layout cell (`Cell` in `cell.rs`). -/
structure Cell where
  id : CellId
  name : List Nat
  geometries : List GeomPrimitive
  instances : List CellInstance
  pins : List Pin
  modified : Bool
deriving DecidableEq, Repr

namespace Cell

/-- Cell::new — the Rust constructor draws a fresh v4 UUID; here the id is
supplied explicitly by the caller. -/
def new (id : CellId) (name : List Nat) : Cell :=
  ⟨id, name, [], [], [], false⟩

/-- Cell::add_geometry — appends and sets the dirty flag. -/
def add_geometry (c : Cell) (g : GeomPrimitive) : Cell :=
  { c with geometries := c.geometries ++ [g], modified := true }

/-- Cell::remove_geometry — returns the removed primitive when the index is
in range (setting the dirty flag), and `none` leaving the cell unchanged
otherwise.  The mutation and the returned value are paired up. -/
def remove_geometry (c : Cell) (index : Nat) : Option GeomPrimitive × Cell :=
  if h : index < c.geometries.length then
    (some (c.geometries.get ⟨index, h⟩),
     { c with geometries := c.geometries.eraseIdx index, modified := true })
  else
    (none, c)

/-- Cell::add_instance. -/
def add_instance (c : Cell) (inst : CellInstance) : Cell :=
  { c with instances := c.instances ++ [inst], modified := true }

/-- Cell::geometries_on_layer — stable-order filter by layer id. -/
def geometries_on_layer (c : Cell) (l : LayerId) : List GeomPrimitive :=
  c.geometries.filter (fun g => g.layer_id = l)

/-- Cell::geometry_count. -/
def geometry_count (c : Cell) : Nat := c.geometries.length

end Cell

/-! ## Layer registry (`opensilicon-core/src/layer.rs`) -/

/-- RGB layer color (`LayerColor`), each channel a `u8`. -/
structure LayerColor where
  r : Nat
  g : Nat
  b : Nat
deriving DecidableEq, Repr

/-- Fill pattern for rendering (`FillPattern`). -/
inductive FillPattern where
  | solid
  | hatched
  | crossHatched
  | stipple
  | dotted
  | outline
deriving DecidableEq, Repr

/-- A technology layer (`Layer`); `opacity` is an `f32` in Rust, modelled as
a rational like the other floats. -/
structure Layer where
  id : LayerId
  name : List Nat
  gds_layer : Nat
  gds_datatype : Nat
  color : LayerColor
  fill_pattern : FillPattern
  opacity : ℚ
  visible : Bool
  selectable : Bool
  desc : List Nat
deriving DecidableEq, Repr

/-- The technology layer stack (`LayerStack`), an ordered list of layers. -/
structure LayerStack where
  layers : List Layer
deriving DecidableEq, Repr

/-- LayerStack::new. -/
def LayerStack.new : LayerStack := ⟨[]⟩

/-! ## Command journal (`opensilicon-core/src/commands.rs`)

The Rust `Box<dyn Command>` trait objects are a closed set of three concrete
command structs; the embedding is the corresponding sum type.  The private
captured-state fields (`inserted_index`, `removed`) live in the constructors,
and `execute`/`undo` return the updated command alongside the database,
mirroring `&mut self` + `&mut LayoutDatabase`. -/

/-- A command together with its captured state (`AddGeometryCommand`,
`RemoveGeometryCommand`, `MoveGeometryCommand`). -/
inductive Command where
  | add (cell_id : CellId) (geometry : GeomPrimitive) (inserted_index : Option Nat)
  | remove (cell_id : CellId) (index : Nat) (removed : Option GeomPrimitive)
  | move (cell_id : CellId) (indices : List Nat) (delta : Point)
deriving DecidableEq, Repr

/-- The public face of a command: what the `new` constructors take.  The
captured-state fields of the Rust structs are private, so API users can only
build commands in this shape. -/
inductive CmdSpec where
  | add (cell_id : CellId) (geometry : GeomPrimitive)
  | remove (cell_id : CellId) (index : Nat)
  | move (cell_id : CellId) (indices : List Nat) (delta : Point)
deriving DecidableEq, Repr

/-- AddGeometryCommand::new / RemoveGeometryCommand::new /
MoveGeometryCommand::new — captured state starts out empty. -/
def CmdSpec.init : CmdSpec → Command
  | .add cid g => .add cid g none
  | .remove cid i => .remove cid i none
  | .move cid idxs d => .move cid idxs d

/-- Forget a command's captured state, keeping its public data. -/
def Command.spec : Command → CmdSpec
  | .add cid g _ => .add cid g
  | .remove cid i _ => .remove cid i
  | .move cid idxs d => .move cid idxs d

/-- Helper `translate_geometry` in `commands.rs`: shift every coordinate of
a primitive by `(dx, dy)`. -/
def translate_geometry (dx dy : ℚ) : GeomPrimitive → GeomPrimitive
  | .rect r =>
    .rect { r with
      lower_left := ⟨r.lower_left.x + dx, r.lower_left.y + dy⟩,
      upper_right := ⟨r.upper_right.x + dx, r.upper_right.y + dy⟩ }
  | .polygon p =>
    .polygon { p with vertices := p.vertices.map (fun q => ⟨q.x + dx, q.y + dy⟩) }
  | .path p =>
    .path { p with points := p.points.map (fun q => ⟨q.x + dx, q.y + dy⟩) }
  | .via v =>
    .via { v with position := ⟨v.position.x + dx, v.position.y + dy⟩ }

/-- The loop in MoveGeometryCommand::execute / undo: translate the geometry
at each listed index, skipping out-of-range indices (`modAt` is the identity
there, exactly like the guarded in-place update). -/
def translateIndices (dx dy : ℚ) (indices : List Nat) (gs : List GeomPrimitive) :
    List GeomPrimitive :=
  indices.foldl (fun acc i => modAt (translate_geometry dx dy) i acc) gs

/-! ## Layout database (`opensilicon-core/src/database.rs`) -/

/-- The undo/redo stacks (`CommandHistory`).  The head of each list is the
top of the corresponding Rust `Vec` stack. -/
structure CommandHistory where
  undo_stack : List Command
  redo_stack : List Command
deriving DecidableEq, Repr

/-- CommandHistory::new (also its `Default`). -/
def CommandHistory.new : CommandHistory := ⟨[], []⟩

/-- The central layout database (`LayoutDatabase`).  `cells` models the
`HashMap<CellId, Cell>` as an association list. -/
structure LayoutDatabase where
  id : Nat
  name : List Nat
  layer_stack : LayerStack
  cells : List (CellId × Cell)
  top_cell : Option CellId
  command_history : CommandHistory
  dbu_per_nm : ℚ
deriving DecidableEq, Repr

namespace LayoutDatabase

/-- LayoutDatabase::new — the Rust constructor draws a fresh v4 UUID for
`id`; it is supplied explicitly here.  `name` is the UTF-8 byte sequence of
the Rust `&str` argument. -/
def mkNew (id : Nat) (name : List Nat) : LayoutDatabase :=
  ⟨id, name, LayerStack.new, [], none, CommandHistory.new, 1⟩

/-- HashMap::get on the cell map (first entry with the key). -/
def get_cell (db : LayoutDatabase) (id : CellId) : Option Cell :=
  (db.cells.find? (fun p => p.1 = id)).map (·.2)

/-- In-place mutation through HashMap::get_mut: replace the (unique) entry
with the given key by a new cell; no-op when the key is absent. -/
def setCell (id : CellId) (c : Cell) : List (CellId × Cell) → List (CellId × Cell)
  | [] => []
  | p :: rest => if p.1 = id then (id, c) :: rest else p :: setCell id c rest

/-- LayoutDatabase::add_cell — insert (replacing any cell already stored
under the id), and point `top_cell` at the cell if it was unset.  Returns
the id like the Rust method. -/
def add_cell (db : LayoutDatabase) (c : Cell) : CellId × LayoutDatabase :=
  let cells' :=
    if db.cells.any (fun p => p.1 = c.id) then setCell c.id c db.cells
    else db.cells ++ [(c.id, c)]
  (c.id,
   { db with
     cells := cells',
     top_cell := if db.top_cell = none then some c.id else db.top_cell })

/-- HashMap::remove: drop the (unique) entry with the given key. -/
def eraseKey (id : CellId) : List (CellId × Cell) → List (CellId × Cell)
  | [] => []
  | p :: rest => if p.1 = id then eraseKey id rest else p :: eraseKey id rest

/-- LayoutDatabase::remove_cell — detach the cell, clearing `top_cell` if it
pointed at it; returns the removed cell. -/
def remove_cell (db : LayoutDatabase) (id : CellId) : Option Cell × LayoutDatabase :=
  ((db.cells.find? (fun p => p.1 = id)).map (·.2),
   { db with
     cells := eraseKey id db.cells,
     top_cell := if db.top_cell = some id then none else db.top_cell })

/-- LayoutDatabase::cell_count. -/
def cell_count (db : LayoutDatabase) : Nat := db.cells.length

/-- LayoutDatabase::all_cells, in the map's iteration order. -/
def all_cells (db : LayoutDatabase) : List Cell := db.cells.map (·.2)

/-- LayoutDatabase::can_undo. -/
def can_undo (db : LayoutDatabase) : Bool := !db.command_history.undo_stack.isEmpty

/-- LayoutDatabase::can_redo. -/
def can_redo (db : LayoutDatabase) : Bool := !db.command_history.redo_stack.isEmpty

end LayoutDatabase

/-- Command::execute — apply the forward action, returning the updated
command (captured state) and database.  Missing cell ids are silent no-ops
that leave the captured state untouched. -/
def Command.execute : Command → LayoutDatabase → Command × LayoutDatabase
  | .add cid g ii, db =>
    match db.get_cell cid with
    | some cell =>
      let cell' := cell.add_geometry g
      (.add cid g (some (cell'.geometry_count - 1)),
       { db with cells := LayoutDatabase.setCell cid cell' db.cells })
    | none => (.add cid g ii, db)
  | .remove cid i r, db =>
    match db.get_cell cid with
    | some cell =>
      let (removed, cell') := cell.remove_geometry i
      (.remove cid i removed,
       { db with cells := LayoutDatabase.setCell cid cell' db.cells })
    | none => (.remove cid i r, db)
  | .move cid idxs d, db =>
    match db.get_cell cid with
    | some cell =>
      let cell' : Cell :=
        { cell with
          geometries := translateIndices d.x d.y idxs cell.geometries,
          modified := true }
      (.move cid idxs d,
       { db with cells := LayoutDatabase.setCell cid cell' db.cells })
    | none => (.move cid idxs d, db)

/-- Command::undo — apply the inverse action.  Note the asymmetry inherited
from the Rust code: `RemoveGeometryCommand::undo` `take()`s its captured
primitive, and only restores it when the cell is found. -/
def Command.undo : Command → LayoutDatabase → Command × LayoutDatabase
  | .add cid g ii, db =>
    match ii with
    | some idx =>
      match db.get_cell cid with
      | some cell =>
        let (_, cell') := cell.remove_geometry idx
        (.add cid g ii, { db with cells := LayoutDatabase.setCell cid cell' db.cells })
      | none => (.add cid g ii, db)
    | none => (.add cid g ii, db)
  | .remove cid i r, db =>
    match r with
    | some g =>
      match db.get_cell cid with
      | some cell =>
        let geoms' :=
          if i ≤ cell.geometries.length then insertAt i g cell.geometries
          else cell.geometries ++ [g]
        let cell' : Cell := { cell with geometries := geoms', modified := true }
        (.remove cid i (some g),
         { db with cells := LayoutDatabase.setCell cid cell' db.cells })
      | none => (.remove cid i none, db)
    | none => (.remove cid i none, db)
  | .move cid idxs d, db =>
    match db.get_cell cid with
    | some cell =>
      let cell' : Cell :=
        { cell with
          geometries := translateIndices (-d.x) (-d.y) idxs cell.geometries,
          modified := true }
      (.move cid idxs d,
       { db with cells := LayoutDatabase.setCell cid cell' db.cells })
    | none => (.move cid idxs d, db)

namespace CommandHistory

/-- CommandHistory::execute — run the command, push it on the undo stack,
clear the redo stack. -/
def execute (h : CommandHistory) (c : Command) (db : LayoutDatabase) :
    CommandHistory × LayoutDatabase :=
  let (c', db') := c.execute db
  (⟨c' :: h.undo_stack, []⟩, db')

/-- CommandHistory::undo — pop, run the inverse, push onto redo; `false`
when the undo stack is empty. -/
def undoStep (h : CommandHistory) (db : LayoutDatabase) :
    Bool × CommandHistory × LayoutDatabase :=
  match h.undo_stack with
  | [] => (false, h, db)
  | c :: rest =>
    let (c', db') := c.undo db
    (true, ⟨rest, c' :: h.redo_stack⟩, db')

/-- CommandHistory::redo — pop from redo, re-run forward, push onto undo;
`false` when the redo stack is empty. -/
def redoStep (h : CommandHistory) (db : LayoutDatabase) :
    Bool × CommandHistory × LayoutDatabase :=
  match h.redo_stack with
  | [] => (false, h, db)
  | c :: rest =>
    let (c', db') := c.execute db
    (true, ⟨c' :: h.undo_stack, rest⟩, db')

/-- CommandHistory::can_undo. -/
def can_undo (h : CommandHistory) : Bool := !h.undo_stack.isEmpty

/-- CommandHistory::can_redo. -/
def can_redo (h : CommandHistory) : Bool := !h.redo_stack.isEmpty

end CommandHistory

/-- Execute a list of commands in order through the journal. -/
def execList (s : CommandHistory × LayoutDatabase) (cs : List Command) :
    CommandHistory × LayoutDatabase :=
  cs.foldl (fun s c => s.1.execute c s.2) s

/-- Call `undo` `n` times (each call a no-op once the stack is empty). -/
def undoN (s : CommandHistory × LayoutDatabase) : Nat → CommandHistory × LayoutDatabase
  | 0 => s
  | n + 1 => undoN ((s.1.undoStep s.2).2) n

/-- Call `redo` `n` times. -/
def redoN (s : CommandHistory × LayoutDatabase) : Nat → CommandHistory × LayoutDatabase
  | 0 => s
  | n + 1 => redoN ((s.1.redoStep s.2).2) n

/-! ## Textual snapshot (`to_json` / `from_json` on `LayoutDatabase`) -/

/-- The fields of `LayoutDatabase` that carry `Serialize`/`Deserialize`
derives; `command_history` is marked `#[serde(skip)]` in `database.rs` and
is therefore absent. -/
structure DbSnapshot where
  id : Nat
  name : List Nat
  layer_stack : LayerStack
  cells : List (CellId × Cell)
  top_cell : Option CellId
  dbu_per_nm : ℚ
deriving DecidableEq, Repr

/-- Modelled from the spec: `LayoutDatabase::to_json` serializes through
`serde_json` (external code); the claims only depend on which fields are
persisted, so the JSON text is modelled as the record of serialized fields.
`command_history` is excluded by the `#[serde(skip)]` attribute in
`database.rs`. -/
def LayoutDatabase.to_json (db : LayoutDatabase) : DbSnapshot :=
  ⟨db.id, db.name, db.layer_stack, db.cells, db.top_cell, db.dbu_per_nm⟩

/-- Modelled from the spec: `LayoutDatabase::from_json` deserializes through
`serde_json`; the skipped `command_history` field is filled with its
`Default` value (empty stacks). -/
def LayoutDatabase.from_json (s : DbSnapshot) : LayoutDatabase :=
  ⟨s.id, s.name, s.layer_stack, s.cells, s.top_cell, CommandHistory.new, s.dbu_per_nm⟩

/-! ## Database-level operation sequences (claim C6) -/

/-- A step of the cell-management API. -/
inductive DbOp where
  | addC (c : Cell)
  | removeC (id : CellId)
deriving Repr

/-- Apply one `add_cell`/`remove_cell` step. -/
def dbStep (db : LayoutDatabase) : DbOp → LayoutDatabase
  | .addC c => (db.add_cell c).2
  | .removeC id => (db.remove_cell id).2

/-- The `top_cell` invariant: if set, it references an existing cell. -/
def topCellValid (db : LayoutDatabase) : Bool :=
  match db.top_cell with
  | none => true
  | some t => (db.get_cell t).isSome

/-- The cell id a command addresses. -/
def CmdSpec.cell_id : CmdSpec → CellId
  | .add cid _ => cid
  | .remove cid _ => cid
  | .move cid _ _ => cid

/-! ## Association-list lemmas for the cell map -/

theorem find?_setCell_self (k : CellId) (v : Cell) (l : List (CellId × Cell))
    (h : l.any (fun p => p.1 = k) = true) :
    (LayoutDatabase.setCell k v l).find? (fun p => p.1 = k) = some (k, v) := by
  induction l with
  | nil => simp at h
  | cons p rest ih =>
    by_cases hp : p.1 = k
    · simp [LayoutDatabase.setCell, hp, List.find?]
    · have h' : rest.any (fun p => p.1 = k) = true := by
        simp [List.any_cons, hp] at h
        simpa using h
      simp [LayoutDatabase.setCell, hp, List.find?, ih h']

theorem length_setCell (k : CellId) (v : Cell) (l : List (CellId × Cell)) :
    (LayoutDatabase.setCell k v l).length = l.length := by
  induction l with
  | nil => rfl
  | cons p rest ih =>
    by_cases hp : p.1 = k <;> simp [LayoutDatabase.setCell, hp, ih]

theorem find?_setCell_other (k t : CellId) (v : Cell) (l : List (CellId × Cell))
    (h : t ≠ k) :
    (LayoutDatabase.setCell k v l).find? (fun p => p.1 = t) =
      l.find? (fun p => p.1 = t) := by
  induction l with
  | nil => rfl
  | cons p rest ih =>
    by_cases hp : p.1 = k
    · have hnt : ¬ p.1 = t := by rw [hp]; exact fun hh => h hh.symm
      simp [LayoutDatabase.setCell, hp, List.find?, hnt, Ne.symm h, h]
    · by_cases ht : p.1 = t
      · simp [LayoutDatabase.setCell, hp, List.find?, ht, h, Ne.symm h]
      · simp [LayoutDatabase.setCell, hp, List.find?, ht, ih]

theorem find?_eraseKey_other (i t : CellId) (l : List (CellId × Cell)) (h : t ≠ i) :
    (LayoutDatabase.eraseKey i l).find? (fun p => p.1 = t) =
      l.find? (fun p => p.1 = t) := by
  induction l with
  | nil => rfl
  | cons p rest ih =>
    by_cases hi : p.1 = i
    · have hnt : ¬ p.1 = t := by rw [hi]; exact fun hh => h hh.symm
      simp [LayoutDatabase.eraseKey, hi, List.find?, hnt, Ne.symm h, ih]
    · by_cases ht : p.1 = t
      · simp [LayoutDatabase.eraseKey, hi, List.find?, ht, h]
      · simp [LayoutDatabase.eraseKey, hi, List.find?, ht, ih]

theorem get_cell_add_self (db : LayoutDatabase) (c : Cell) :
    (db.add_cell c).2.get_cell c.id = some c := by
  unfold LayoutDatabase.add_cell LayoutDatabase.get_cell
  by_cases h : db.cells.any (fun p => p.1 = c.id)
  · simp only [h, if_true]
    simp [find?_setCell_self c.id c db.cells h]
  · simp only [h, if_false]
    have hnone : db.cells.find? (fun p => p.1 = c.id) = none := by
      rcases hf : db.cells.find? (fun p => p.1 = c.id) with _ | q
      · exact hf
      · exfalso
        have hq := List.find?_some hf
        have hmem := List.mem_of_find?_eq_some hf
        have : db.cells.any (fun p => p.1 = c.id) = true :=
          List.any_eq_true.mpr ⟨q, hmem, hq⟩
        simp [this] at h
    simp [List.find?_append, hnone, List.find?]

theorem get_cell_add_other (db : LayoutDatabase) (c : Cell) (t : CellId)
    (h : t ≠ c.id) (hs : (db.get_cell t).isSome) :
    (db.add_cell c).2.get_cell t = db.get_cell t := by
  unfold LayoutDatabase.add_cell LayoutDatabase.get_cell at *
  by_cases ha : db.cells.any (fun p => p.1 = c.id)
  · simp only [ha, if_true]
    simp [find?_setCell_other c.id t c db.cells h]
  · simp only [ha, if_false]
    rcases hf : db.cells.find? (fun p => p.1 = t) with _ | q
    · simp [hf] at hs
    · simp [List.find?_append, hf]

/-! ## Concrete sample data used by witnesses and counterexamples -/

/-- A sample rectangle primitive on layer 1. -/
def gRect1 : GeomPrimitive := .rect (Rect.new 1 0 0 10 10)

/-- A sample cell with id 1 and name "A". -/
def cellA : Cell := Cell.new 1 [65]

/-- A sample cell with id 2 and name "B". -/
def cellB : Cell := Cell.new 2 [66]

/-- A one-cell sample database (cell id 1 becomes the top cell). -/
def dbA : LayoutDatabase := ((LayoutDatabase.mkNew 0 [68]).add_cell cellA).2

/-! ## Claim C9 -/

/-- C9: `GeomPrimitive::layer_id` reports a via's `cut_layer` (not its
bottom or top layer), and consequently `Cell::geometries_on_layer l`
contains a via exactly when the via is one of the cell's geometries and its
`cut_layer` equals `l`. -/
theorem c9_via_layer_id (v : Via) :
    (GeomPrimitive.via v).layer_id = v.cut_layer ∧
    ∀ (c : Cell) (l : LayerId),
      (GeomPrimitive.via v) ∈ c.geometries_on_layer l ↔
        ((GeomPrimitive.via v) ∈ c.geometries ∧ v.cut_layer = l) := by
  refine ⟨rfl, fun c l => ?_⟩
  simp [Cell.geometries_on_layer, List.mem_filter, GeomPrimitive.layer_id]

/-! ## Claim C5 -/

/-- C5: executing any of the three commands against a cell id that is not in
the database leaves the database unchanged and records no captured state
(the returned command equals the freshly constructed one), and the
subsequent `undo` also leaves both unchanged.  Neither call can signal an
error: `execute`/`undo` are total and return no error value. -/
theorem c5_missing_cell_noop (s : CmdSpec) (db : LayoutDatabase)
    (h : db.get_cell s.cell_id = none) :
    (s.init).execute db = (s.init, db) ∧ (s.init).undo db = (s.init, db) := by
  cases s with
  | add cid g =>
    simp only [CmdSpec.cell_id] at h
    simp [CmdSpec.init, Command.execute, Command.undo, h]
  | remove cid i =>
    simp only [CmdSpec.cell_id] at h
    simp [CmdSpec.init, Command.execute, Command.undo, h]
  | move cid idxs d =>
    simp only [CmdSpec.cell_id] at h
    simp [CmdSpec.init, Command.execute, Command.undo, h]

/-- Witness for C5 at a concrete missing id: database `dbA` has no cell 99. -/
theorem c5_missing_cell_noop_witness :
    ((CmdSpec.add 99 gRect1).init).execute dbA = ((CmdSpec.add 99 gRect1).init, dbA) ∧
    ((CmdSpec.add 99 gRect1).init).undo dbA = ((CmdSpec.add 99 gRect1).init, dbA) :=
  c5_missing_cell_noop (CmdSpec.add 99 gRect1) dbA (by decide)

/-! ## Claim C10 -/

/-- C10 (amended): `add_cell` with an id already present replaces the stored
cell without increasing the cell count and without signalling anything; the
`top_cell` pointer is unchanged whenever it is set, but when `top_cell` is
`None` (a state reachable by removing the top cell) `add_cell` sets it to
the added cell's id. -/
theorem c10_add_cell_replaces (db : LayoutDatabase) (c : Cell)
    (h : db.cells.any (fun p => p.1 = c.id) = true) :
    (db.add_cell c).2.cell_count = db.cell_count ∧
    (db.add_cell c).2.get_cell c.id = some c ∧
    (db.top_cell ≠ none → (db.add_cell c).2.top_cell = db.top_cell) ∧
    (db.top_cell = none → (db.add_cell c).2.top_cell = some c.id) := by
  refine ⟨?_, get_cell_add_self db c, ?_, ?_⟩
  · simp [LayoutDatabase.add_cell, LayoutDatabase.cell_count, h, length_setCell]
  · intro ht
    simp [LayoutDatabase.add_cell, ht]
  · intro ht
    simp [LayoutDatabase.add_cell, ht]

/-- Witness for C10: replacing the cell stored under id 1 in `dbA`. -/
theorem c10_add_cell_replaces_witness :
    (dbA.add_cell (Cell.new 1 [67])).2.cell_count = dbA.cell_count ∧
    (dbA.add_cell (Cell.new 1 [67])).2.get_cell 1 = some (Cell.new 1 [67]) ∧
    (dbA.top_cell ≠ none → (dbA.add_cell (Cell.new 1 [67])).2.top_cell = dbA.top_cell) ∧
    (dbA.top_cell = none → (dbA.add_cell (Cell.new 1 [67])).2.top_cell = some 1) :=
  c10_add_cell_replaces dbA (Cell.new 1 [67]) (by decide)

/-- Counterexample to C10 as stated: after `add A; add B; remove A` the top
cell is `None` although cell id 2 is still present, and re-adding a cell
with id 2 changes `top_cell` from `None` to `Some 2`, so "top_cell is left
unchanged because it is already set" fails. -/
theorem c10_top_cell_counterexample :
    (let db3 := ((((LayoutDatabase.mkNew 0 [68]).add_cell cellA).2.add_cell cellB).2.remove_cell 1).2
     db3.cells.any (fun p => p.1 = (2 : CellId)) = true ∧
     db3.top_cell = none ∧
     (db3.add_cell (Cell.new 2 [67])).2.top_cell ≠ db3.top_cell) := by
  decide

/-! ## Claim C6 -/

/-- C6: over any sequence of `add_cell`/`remove_cell` operations the
`top_cell` pointer, when set, always references an existing cell; an
`add_cell` performed while `top_cell` is `None` makes the added cell the top
cell; and `remove_cell` of the current top cell clears the pointer to `None`
(no other cell is promoted). -/
theorem c6_top_cell_invariant (db : LayoutDatabase) (ops : List DbOp)
    (h : topCellValid db = true) :
    topCellValid (ops.foldl dbStep db) = true ∧
    (∀ c : Cell, db.top_cell = none → (db.add_cell c).2.top_cell = some c.id) ∧
    (∀ t : CellId, db.top_cell = some t → (db.remove_cell t).2.top_cell = none) := by
  refine ⟨?_, ?_, ?_⟩
  · induction ops generalizing db with
    | nil => exact h
    | cons op rest ih =>
      refine ih (dbStep db op) ?_
      cases op with
      | addC c =>
        show topCellValid (db.add_cell c).2 = true
        rcases htop : db.top_cell with _ | t
        · have htop' : (db.add_cell c).2.top_cell = some c.id := by
            simp [LayoutDatabase.add_cell, htop]
          simp [topCellValid, htop', get_cell_add_self db c]
        · have hval : (db.get_cell t).isSome := by
            unfold topCellValid at h; rw [htop] at h; simpa using h
          have htop' : (db.add_cell c).2.top_cell = some t := by
            simp [LayoutDatabase.add_cell, htop]
          by_cases htc : t = c.id
          · subst htc
            simp [topCellValid, htop', get_cell_add_self db c]
          · simp [topCellValid, htop', get_cell_add_other db c t htc hval, hval]
      | removeC i =>
        show topCellValid (db.remove_cell i).2 = true
        rcases htop : db.top_cell with _ | t
        · have htop' : (db.remove_cell i).2.top_cell = none := by
            simp [LayoutDatabase.remove_cell, htop]
          simp [topCellValid, htop']
        · have hval : (db.get_cell t).isSome := by
            unfold topCellValid at h; rw [htop] at h; simpa using h
          by_cases hti : t = i
          · subst hti
            have htop' : (db.remove_cell t).2.top_cell = none := by
              simp [LayoutDatabase.remove_cell, htop]
            simp [topCellValid, htop']
          · have htop' : (db.remove_cell i).2.top_cell = some t := by
              simp only [LayoutDatabase.remove_cell, htop]
              simp [hti]
            have hget : (db.remove_cell i).2.get_cell t = db.get_cell t := by
              simp only [LayoutDatabase.remove_cell, LayoutDatabase.get_cell]
              rw [find?_eraseKey_other i t db.cells hti]
            simp [topCellValid, htop', hget, hval]
  · intro c htop
    simp [LayoutDatabase.add_cell, htop]
  · intro t htop
    simp [LayoutDatabase.remove_cell, htop]

/-- Witness for C6 on a concrete run: add A, add B, remove A, starting from
an empty database. -/
theorem c6_top_cell_invariant_witness :
    topCellValid ([DbOp.addC cellA, DbOp.addC cellB, DbOp.removeC 1].foldl dbStep
      (LayoutDatabase.mkNew 0 [68])) = true ∧
    (∀ c : Cell, (LayoutDatabase.mkNew 0 [68]).top_cell = none →
      ((LayoutDatabase.mkNew 0 [68]).add_cell c).2.top_cell = some c.id) ∧
    (∀ t : CellId, (LayoutDatabase.mkNew 0 [68]).top_cell = some t →
      ((LayoutDatabase.mkNew 0 [68]).remove_cell t).2.top_cell = none) :=
  c6_top_cell_invariant (LayoutDatabase.mkNew 0 [68])
    [DbOp.addC cellA, DbOp.addC cellB, DbOp.removeC 1] (by decide)

/-! ## Claim C7 -/

/-- C7: a snapshot round-trip preserves `id`, `name`, the layer stack, the
cell mapping, `top_cell` and `dbu_per_nm`, while the command journal is
excluded from the snapshot: the reloaded database has empty undo and redo
history (`can_undo` and `can_redo` both return `false`), regardless of the
original's history. -/
theorem c7_snapshot_roundtrip (db : LayoutDatabase) :
    (LayoutDatabase.from_json db.to_json).id = db.id ∧
    (LayoutDatabase.from_json db.to_json).name = db.name ∧
    (LayoutDatabase.from_json db.to_json).layer_stack = db.layer_stack ∧
    (LayoutDatabase.from_json db.to_json).cells = db.cells ∧
    (LayoutDatabase.from_json db.to_json).top_cell = db.top_cell ∧
    (LayoutDatabase.from_json db.to_json).dbu_per_nm = db.dbu_per_nm ∧
    (LayoutDatabase.from_json db.to_json).can_undo = false ∧
    (LayoutDatabase.from_json db.to_json).can_redo = false :=
  ⟨rfl, rfl, rfl, rfl, rfl, rfl, rfl, rfl⟩

/-! ## Claim C1: shape of the cell map modulo the dirty flag

`Cell::add_geometry` and friends set `modified = true` and `undo` never
clears it, so the undo stack restores every cell field except that flag.
The comparisons below therefore erase the flag on both sides; the
counterexample shows the claim is false without the erasure. -/

/-- Forget a cell's dirty flag. -/
def Cell.clearModified (c : Cell) : Cell := { c with modified := false }

/-- The cell map with every dirty flag cleared. -/
def cellsShape (l : List (CellId × Cell)) : List (CellId × Cell) :=
  l.map (fun p => (p.1, p.2.clearModified))

/-- Execute a freshly-constructed command, keeping the database only. -/
def applySpec (db : LayoutDatabase) (s : CmdSpec) : LayoutDatabase :=
  ((s.init).execute db).2

/-- Run a list of freshly-constructed commands over the database. -/
def applyRun (db : LayoutDatabase) (ss : List CmdSpec) : LayoutDatabase :=
  ss.foldl applySpec db

theorem spec_init (s : CmdSpec) : s.init.spec = s := by
  cases s <;> rfl

theorem clearModified_fields {c1 c2 : Cell} (h : c1.clearModified = c2.clearModified) :
    c1.id = c2.id ∧ c1.name = c2.name ∧ c1.geometries = c2.geometries ∧
    c1.instances = c2.instances ∧ c1.pins = c2.pins := by
  cases c1; cases c2
  simpa [Cell.clearModified, Cell.mk.injEq] using h

theorem clearModified_withGeoms {c1 c2 : Cell} (h : c1.clearModified = c2.clearModified)
    (gs : List GeomPrimitive) (b1 b2 : Bool) :
    ({ c1 with geometries := gs, modified := b1 } : Cell).clearModified =
    ({ c2 with geometries := gs, modified := b2 } : Cell).clearModified := by
  obtain ⟨hid, hname, _, hinst, hpins⟩ := clearModified_fields h
  cases c1; cases c2
  simp_all [Cell.clearModified]

theorem find?_cellsShape (k : CellId) (l : List (CellId × Cell)) :
    (cellsShape l).find? (fun p => p.1 = k) =
      (l.find? (fun p => p.1 = k)).map (fun p => (p.1, p.2.clearModified)) := by
  induction l with
  | nil => rfl
  | cons p rest ih =>
    by_cases hp : p.1 = k
    · simp [cellsShape, List.find?, hp]
    · simp [cellsShape, List.find?, hp] at ih ⊢
      exact ih

theorem find?_shape_eq {d1 d2 : List (CellId × Cell)}
    (h : cellsShape d1 = cellsShape d2) (k : CellId) :
    (d1.find? (fun p => p.1 = k)).map (fun p => (p.1, p.2.clearModified)) =
      (d2.find? (fun p => p.1 = k)).map (fun p => (p.1, p.2.clearModified)) := by
  rw [← find?_cellsShape, ← find?_cellsShape, h]

theorem cellsShape_setCell (k : CellId) (v : Cell) (l : List (CellId × Cell)) :
    cellsShape (LayoutDatabase.setCell k v l) =
      LayoutDatabase.setCell k v.clearModified (cellsShape l) := by
  induction l with
  | nil => rfl
  | cons p rest ih =>
    simp only [cellsShape] at ih
    by_cases hp : p.1 = k <;>
      simp [cellsShape, LayoutDatabase.setCell, hp, ih]

theorem setCell_setCell (k : CellId) (v1 v2 : Cell) (l : List (CellId × Cell)) :
    LayoutDatabase.setCell k v2 (LayoutDatabase.setCell k v1 l) =
      LayoutDatabase.setCell k v2 l := by
  induction l with
  | nil => rfl
  | cons p rest ih =>
    by_cases hp : p.1 = k <;> simp [LayoutDatabase.setCell, hp, ih]

theorem cellsShape_setCell_restore {l : List (CellId × Cell)} {k : CellId}
    {q : CellId × Cell} (hf : l.find? (fun p => p.1 = k) = some q) {v : Cell}
    (hv : v.clearModified = q.2.clearModified) :
    cellsShape (LayoutDatabase.setCell k v l) = cellsShape l := by
  induction l with
  | nil => simp [List.find?] at hf
  | cons p rest ih =>
    by_cases hp : p.1 = k
    · have hpq : p = q := by simpa [List.find?, hp] using hf
      subst hpq
      simp [LayoutDatabase.setCell, hp, cellsShape, hv]
    · have hf' : rest.find? (fun p => p.1 = k) = some q := by
        simpa [List.find?, hp] using hf
      have hrest := ih hf'
      simp only [cellsShape] at hrest
      simp [LayoutDatabase.setCell, hp, cellsShape, hrest]

theorem find?_setCell_found {l : List (CellId × Cell)} {k : CellId}
    {q : CellId × Cell} (hf : l.find? (fun p => p.1 = k) = some q) (v : Cell) :
    (LayoutDatabase.setCell k v l).find? (fun p => p.1 = k) = some (k, v) := by
  induction l with
  | nil => simp [List.find?] at hf
  | cons p rest ih =>
    by_cases hp : p.1 = k
    · simp [LayoutDatabase.setCell, hp, List.find?]
    · have hf' : rest.find? (fun p => p.1 = k) = some q := by
        simpa [List.find?, hp] using hf
      simp [LayoutDatabase.setCell, hp, List.find?, ih hf']

/-! Translation inverses for the move command. -/

theorem translate_geometry_cancel (dx dy : ℚ) (g : GeomPrimitive) :
    translate_geometry (-dx) (-dy) (translate_geometry dx dy g) = g := by
  have hpt : ((fun q : Point => (⟨q.x + -dx, q.y + -dy⟩ : Point)) ∘
      fun q : Point => (⟨q.x + dx, q.y + dy⟩ : Point)) = id := by
    funext q
    simp [Function.comp, add_neg_cancel_right]
  cases g <;>
    simp [translate_geometry, List.map_map, hpt, add_neg_cancel_right]

theorem translate_geometry_comm (dx dy ex ey : ℚ) (g : GeomPrimitive) :
    translate_geometry dx dy (translate_geometry ex ey g) =
      translate_geometry ex ey (translate_geometry dx dy g) := by
  have hpt : ((fun q : Point => (⟨q.x + dx, q.y + dy⟩ : Point)) ∘
      fun q : Point => (⟨q.x + ex, q.y + ey⟩ : Point)) =
      ((fun q : Point => (⟨q.x + ex, q.y + ey⟩ : Point)) ∘
      fun q : Point => (⟨q.x + dx, q.y + dy⟩ : Point)) := by
    funext q
    simp [Function.comp, add_right_comm]
  cases g <;>
    simp [translate_geometry, List.map_map, hpt, add_right_comm]

theorem modAt_translate_comm (dx dy ex ey : ℚ) (i j : Nat)
    (gs : List GeomPrimitive) :
    modAt (translate_geometry dx dy) i (modAt (translate_geometry ex ey) j gs) =
      modAt (translate_geometry ex ey) j (modAt (translate_geometry dx dy) i gs) := by
  by_cases hij : i = j
  · subst hij
    rw [modAt_modAt_same, modAt_modAt_same]
    exact modAt_congrFun (fun a => translate_geometry_comm dx dy ex ey a) i gs
  · exact modAt_comm _ _ hij gs

theorem modAt_translateIndices_comm (dx dy ex ey : ℚ) (j : Nat) (idxs : List Nat)
    (gs : List GeomPrimitive) :
    modAt (translate_geometry ex ey) j (translateIndices dx dy idxs gs) =
      translateIndices dx dy idxs (modAt (translate_geometry ex ey) j gs) := by
  induction idxs generalizing gs with
  | nil => rfl
  | cons i rest ih =>
    show modAt (translate_geometry ex ey) j
        (translateIndices dx dy rest (modAt (translate_geometry dx dy) i gs)) = _
    rw [ih, modAt_translate_comm]
    rfl

theorem translateIndices_cancel (dx dy : ℚ) (idxs : List Nat)
    (gs : List GeomPrimitive) :
    translateIndices (-dx) (-dy) idxs (translateIndices dx dy idxs gs) = gs := by
  induction idxs generalizing gs with
  | nil => rfl
  | cons i rest ih =>
    show translateIndices (-dx) (-dy) rest
        (modAt (translate_geometry (-dx) (-dy)) i
          (translateIndices dx dy rest (modAt (translate_geometry dx dy) i gs))) = gs
    rw [modAt_translateIndices_comm, modAt_modAt_same,
        modAt_id _ (fun a => translate_geometry_cancel dx dy a), ih]

/-! Congruence of command execution modulo the dirty flag. -/

theorem clearModified_add_congr {c1 c2 : Cell} (h : c1.clearModified = c2.clearModified)
    (g : GeomPrimitive) :
    (c1.add_geometry g).clearModified = (c2.add_geometry g).clearModified := by
  have hgeo := (clearModified_fields h).2.2.1
  unfold Cell.add_geometry
  rw [hgeo]
  exact clearModified_withGeoms h _ _ _

theorem remove_geometry_congr {c1 c2 : Cell} (h : c1.clearModified = c2.clearModified)
    (i : Nat) :
    (c1.remove_geometry i).1 = (c2.remove_geometry i).1 ∧
    (c1.remove_geometry i).2.clearModified = (c2.remove_geometry i).2.clearModified := by
  have hgeo := (clearModified_fields h).2.2.1
  by_cases hi : i < c2.geometries.length
  · constructor
    · simp only [Cell.remove_geometry, hgeo]
      rw [dif_pos hi, dif_pos hi]
      simp [hgeo]
    · simp only [Cell.remove_geometry, hgeo]
      rw [dif_pos hi, dif_pos hi]
      exact clearModified_withGeoms h _ _ _
  · constructor
    · simp only [Cell.remove_geometry, hgeo]
      rw [dif_neg hi, dif_neg hi]
    · simp only [Cell.remove_geometry, hgeo]
      rw [dif_neg hi, dif_neg hi]
      exact h

theorem execute_congr (c : Command) {d1 d2 : LayoutDatabase}
    (h : cellsShape d1.cells = cellsShape d2.cells) :
    (c.execute d1).1 = (c.execute d2).1 ∧
    cellsShape (c.execute d1).2.cells = cellsShape (c.execute d2).2.cells := by
  cases c with
  | add cid g ii =>
    rcases h1 : d1.cells.find? (fun p => p.1 = cid) with _ | q1 <;>
      rcases h2 : d2.cells.find? (fun p => p.1 = cid) with _ | q2
    · have hg1 : d1.get_cell cid = none := by simp [LayoutDatabase.get_cell, h1]
      have hg2 : d2.get_cell cid = none := by simp [LayoutDatabase.get_cell, h2]
      simp [Command.execute, hg1, hg2, h]
    · exact absurd (find?_shape_eq h cid) (by simp [h1, h2])
    · exact absurd (find?_shape_eq h cid) (by simp [h1, h2])
    · have hq : (q1.1, q1.2.clearModified) = (q2.1, q2.2.clearModified) := by
        have := find?_shape_eq h cid
        rw [h1, h2] at this
        simpa using this
      have hcell : q1.2.clearModified = q2.2.clearModified := congrArg Prod.snd hq
      have hgeo := (clearModified_fields hcell).2.2.1
      have hg1 : d1.get_cell cid = some q1.2 := by simp [LayoutDatabase.get_cell, h1]
      have hg2 : d2.get_cell cid = some q2.2 := by simp [LayoutDatabase.get_cell, h2]
      constructor
      · simp [Command.execute, hg1, hg2, Cell.geometry_count, Cell.add_geometry, hgeo]
      · simp only [Command.execute, hg1, hg2]
        rw [cellsShape_setCell, cellsShape_setCell, h, clearModified_add_congr hcell g]
  | remove cid i r =>
    rcases h1 : d1.cells.find? (fun p => p.1 = cid) with _ | q1 <;>
      rcases h2 : d2.cells.find? (fun p => p.1 = cid) with _ | q2
    · have hg1 : d1.get_cell cid = none := by simp [LayoutDatabase.get_cell, h1]
      have hg2 : d2.get_cell cid = none := by simp [LayoutDatabase.get_cell, h2]
      simp [Command.execute, hg1, hg2, h]
    · exact absurd (find?_shape_eq h cid) (by simp [h1, h2])
    · exact absurd (find?_shape_eq h cid) (by simp [h1, h2])
    · have hq : (q1.1, q1.2.clearModified) = (q2.1, q2.2.clearModified) := by
        have := find?_shape_eq h cid
        rw [h1, h2] at this
        simpa using this
      have hcell : q1.2.clearModified = q2.2.clearModified := congrArg Prod.snd hq
      have hg1 : d1.get_cell cid = some q1.2 := by simp [LayoutDatabase.get_cell, h1]
      have hg2 : d2.get_cell cid = some q2.2 := by simp [LayoutDatabase.get_cell, h2]
      obtain ⟨hrem, hcell'⟩ := remove_geometry_congr hcell i
      constructor
      · simp [Command.execute, hg1, hg2, hrem]
      · simp only [Command.execute, hg1, hg2]
        rw [cellsShape_setCell, cellsShape_setCell, h, hcell']
  | move cid idxs dlt =>
    rcases h1 : d1.cells.find? (fun p => p.1 = cid) with _ | q1 <;>
      rcases h2 : d2.cells.find? (fun p => p.1 = cid) with _ | q2
    · have hg1 : d1.get_cell cid = none := by simp [LayoutDatabase.get_cell, h1]
      have hg2 : d2.get_cell cid = none := by simp [LayoutDatabase.get_cell, h2]
      simp [Command.execute, hg1, hg2, h]
    · exact absurd (find?_shape_eq h cid) (by simp [h1, h2])
    · exact absurd (find?_shape_eq h cid) (by simp [h1, h2])
    · have hq : (q1.1, q1.2.clearModified) = (q2.1, q2.2.clearModified) := by
        have := find?_shape_eq h cid
        rw [h1, h2] at this
        simpa using this
      have hcell : q1.2.clearModified = q2.2.clearModified := congrArg Prod.snd hq
      have hgeo := (clearModified_fields hcell).2.2.1
      have hg1 : d1.get_cell cid = some q1.2 := by simp [LayoutDatabase.get_cell, h1]
      have hg2 : d2.get_cell cid = some q2.2 := by simp [LayoutDatabase.get_cell, h2]
      constructor
      · simp [Command.execute, hg1, hg2]
      · simp only [Command.execute, hg1, hg2]
        rw [cellsShape_setCell, cellsShape_setCell, h]
        have : ({ q1.2 with
            geometries := translateIndices dlt.x dlt.y idxs q1.2.geometries,
            modified := true } : Cell).clearModified =
            ({ q2.2 with
            geometries := translateIndices dlt.x dlt.y idxs q2.2.geometries,
            modified := true } : Cell).clearModified := by
          rw [hgeo]
          exact clearModified_withGeoms hcell _ _ _
        rw [this]

theorem undo_congr (c : Command) {d1 d2 : LayoutDatabase}
    (h : cellsShape d1.cells = cellsShape d2.cells) :
    (c.undo d1).1 = (c.undo d2).1 ∧
    cellsShape (c.undo d1).2.cells = cellsShape (c.undo d2).2.cells := by
  cases c with
  | add cid g ii =>
    cases ii with
    | none => exact ⟨rfl, h⟩
    | some idx =>
      rcases h1 : d1.cells.find? (fun p => p.1 = cid) with _ | q1 <;>
        rcases h2 : d2.cells.find? (fun p => p.1 = cid) with _ | q2
      · have hg1 : d1.get_cell cid = none := by simp [LayoutDatabase.get_cell, h1]
        have hg2 : d2.get_cell cid = none := by simp [LayoutDatabase.get_cell, h2]
        simp [Command.undo, hg1, hg2, h]
      · exact absurd (find?_shape_eq h cid) (by simp [h1, h2])
      · exact absurd (find?_shape_eq h cid) (by simp [h1, h2])
      · have hq : (q1.1, q1.2.clearModified) = (q2.1, q2.2.clearModified) := by
          have := find?_shape_eq h cid
          rw [h1, h2] at this
          simpa using this
        have hcell : q1.2.clearModified = q2.2.clearModified := congrArg Prod.snd hq
        have hg1 : d1.get_cell cid = some q1.2 := by simp [LayoutDatabase.get_cell, h1]
        have hg2 : d2.get_cell cid = some q2.2 := by simp [LayoutDatabase.get_cell, h2]
        obtain ⟨hrem, hcell'⟩ := remove_geometry_congr hcell idx
        constructor
        · simp [Command.undo, hg1, hg2]
        · simp only [Command.undo, hg1, hg2]
          rw [cellsShape_setCell, cellsShape_setCell, h, hcell']
  | remove cid i r =>
    cases r with
    | none => exact ⟨rfl, h⟩
    | some g =>
      rcases h1 : d1.cells.find? (fun p => p.1 = cid) with _ | q1 <;>
        rcases h2 : d2.cells.find? (fun p => p.1 = cid) with _ | q2
      · have hg1 : d1.get_cell cid = none := by simp [LayoutDatabase.get_cell, h1]
        have hg2 : d2.get_cell cid = none := by simp [LayoutDatabase.get_cell, h2]
        simp [Command.undo, hg1, hg2, h]
      · exact absurd (find?_shape_eq h cid) (by simp [h1, h2])
      · exact absurd (find?_shape_eq h cid) (by simp [h1, h2])
      · have hq : (q1.1, q1.2.clearModified) = (q2.1, q2.2.clearModified) := by
          have := find?_shape_eq h cid
          rw [h1, h2] at this
          simpa using this
        have hcell : q1.2.clearModified = q2.2.clearModified := congrArg Prod.snd hq
        have hgeo := (clearModified_fields hcell).2.2.1
        have hg1 : d1.get_cell cid = some q1.2 := by simp [LayoutDatabase.get_cell, h1]
        have hg2 : d2.get_cell cid = some q2.2 := by simp [LayoutDatabase.get_cell, h2]
        constructor
        · simp [Command.undo, hg1, hg2]
        · simp only [Command.undo, hg1, hg2]
          rw [cellsShape_setCell, cellsShape_setCell, h]
          have hcc : ({ q1.2 with
              geometries :=
                if i ≤ q1.2.geometries.length then insertAt i g q1.2.geometries
                else q1.2.geometries ++ [g],
              modified := true } : Cell).clearModified =
              ({ q2.2 with
              geometries :=
                if i ≤ q2.2.geometries.length then insertAt i g q2.2.geometries
                else q2.2.geometries ++ [g],
              modified := true } : Cell).clearModified := by
            rw [hgeo]
            exact clearModified_withGeoms hcell _ _ _
          rw [hcc]
  | move cid idxs dlt =>
    rcases h1 : d1.cells.find? (fun p => p.1 = cid) with _ | q1 <;>
      rcases h2 : d2.cells.find? (fun p => p.1 = cid) with _ | q2
    · have hg1 : d1.get_cell cid = none := by simp [LayoutDatabase.get_cell, h1]
      have hg2 : d2.get_cell cid = none := by simp [LayoutDatabase.get_cell, h2]
      simp [Command.undo, hg1, hg2, h]
    · exact absurd (find?_shape_eq h cid) (by simp [h1, h2])
    · exact absurd (find?_shape_eq h cid) (by simp [h1, h2])
    · have hq : (q1.1, q1.2.clearModified) = (q2.1, q2.2.clearModified) := by
        have := find?_shape_eq h cid
        rw [h1, h2] at this
        simpa using this
      have hcell : q1.2.clearModified = q2.2.clearModified := congrArg Prod.snd hq
      have hgeo := (clearModified_fields hcell).2.2.1
      have hg1 : d1.get_cell cid = some q1.2 := by simp [LayoutDatabase.get_cell, h1]
      have hg2 : d2.get_cell cid = some q2.2 := by simp [LayoutDatabase.get_cell, h2]
      constructor
      · simp [Command.undo, hg1, hg2]
      · simp only [Command.undo, hg1, hg2]
        rw [cellsShape_setCell, cellsShape_setCell, h]
        have hcc : ({ q1.2 with
            geometries := translateIndices (-dlt.x) (-dlt.y) idxs q1.2.geometries,
            modified := true } : Cell).clearModified =
            ({ q2.2 with
            geometries := translateIndices (-dlt.x) (-dlt.y) idxs q2.2.geometries,
            modified := true } : Cell).clearModified := by
          rw [hgeo]
          exact clearModified_withGeoms hcell _ _ _
        rw [hcc]

theorem execute_undo_inv (c : Command) (d : LayoutDatabase) :
    cellsShape ((c.execute d).1.undo (c.execute d).2).2.cells = cellsShape d.cells := by
  cases c with
  | add cid g ii =>
    rcases hf : d.cells.find? (fun p => p.1 = cid) with _ | q
    · have hg : d.get_cell cid = none := by simp [LayoutDatabase.get_cell, hf]
      cases ii with
      | none => simp [Command.execute, Command.undo, hg]
      | some idx => simp [Command.execute, Command.undo, hg]
    · have hg : d.get_cell cid = some q.2 := by simp [LayoutDatabase.get_cell, hf]
      simp only [Command.execute, hg]
      have hidx : (q.2.add_geometry g).geometry_count - 1 = q.2.geometries.length := by
        simp [Cell.add_geometry, Cell.geometry_count]
      have hg' : ({ d with
          cells := LayoutDatabase.setCell cid (q.2.add_geometry g) d.cells } :
          LayoutDatabase).get_cell cid = some (q.2.add_geometry g) := by
        simp [LayoutDatabase.get_cell, find?_setCell_found hf]
      simp only [Command.undo, hidx, hg']
      have hlt : q.2.geometries.length < (q.2.add_geometry g).geometries.length := by
        simp [Cell.add_geometry]
      simp only [Cell.remove_geometry, dif_pos hlt]
      rw [setCell_setCell]
      apply cellsShape_setCell_restore hf
      simp [Cell.clearModified, Cell.add_geometry, eraseIdx_append_last]
  | remove cid i r =>
    rcases hf : d.cells.find? (fun p => p.1 = cid) with _ | q
    · have hg : d.get_cell cid = none := by simp [LayoutDatabase.get_cell, hf]
      cases r with
      | none => simp [Command.execute, Command.undo, hg]
      | some g => simp [Command.execute, Command.undo, hg]
    · have hg : d.get_cell cid = some q.2 := by simp [LayoutDatabase.get_cell, hf]
      simp only [Command.execute, hg]
      by_cases hi : i < q.2.geometries.length
      · simp only [Cell.remove_geometry, dif_pos hi]
        have hg' : ({ d with
            cells := LayoutDatabase.setCell cid
              { q.2 with geometries := q.2.geometries.eraseIdx i, modified := true }
              d.cells } : LayoutDatabase).get_cell cid =
            some { q.2 with geometries := q.2.geometries.eraseIdx i, modified := true } := by
          simp [LayoutDatabase.get_cell, find?_setCell_found hf]
        simp only [Command.undo, hg']
        have hle : i ≤ (q.2.geometries.eraseIdx i).length := by
          rw [List.length_eraseIdx, if_pos hi]
          omega
        rw [if_pos hle]
        rw [setCell_setCell]
        apply cellsShape_setCell_restore hf
        simp only [Cell.clearModified]
        have hins := insertAt_eraseIdx q.2.geometries i hi
        rw [List.get_eq_getElem] at hins
        simp [hins]
      · simp only [Cell.remove_geometry, dif_neg hi]
        simp only [Command.undo]
        apply cellsShape_setCell_restore hf rfl
  | move cid idxs dlt =>
    rcases hf : d.cells.find? (fun p => p.1 = cid) with _ | q
    · have hg : d.get_cell cid = none := by simp [LayoutDatabase.get_cell, hf]
      simp [Command.execute, Command.undo, hg]
    · have hg : d.get_cell cid = some q.2 := by simp [LayoutDatabase.get_cell, hf]
      simp only [Command.execute, hg]
      have hg' : ({ d with
          cells := LayoutDatabase.setCell cid
            { q.2 with
              geometries := translateIndices dlt.x dlt.y idxs q.2.geometries,
              modified := true } d.cells } : LayoutDatabase).get_cell cid =
          some { q.2 with
            geometries := translateIndices dlt.x dlt.y idxs q.2.geometries,
            modified := true } := by
        simp [LayoutDatabase.get_cell, find?_setCell_found hf]
      simp only [Command.undo, hg']
      rw [setCell_setCell]
      apply cellsShape_setCell_restore hf
      simp [Cell.clearModified, translateIndices_cancel]

theorem execute_spec_eq (c : Command) (d : LayoutDatabase) :
    (c.execute d).1.spec = c.spec := by
  cases c with
  | add cid g ii =>
    cases hg : d.get_cell cid <;> simp [Command.execute, hg, Command.spec]
  | remove cid i r =>
    cases hg : d.get_cell cid <;> simp [Command.execute, hg, Command.spec]
  | move cid idxs dlt =>
    cases hg : d.get_cell cid <;> simp [Command.execute, hg, Command.spec]

theorem undo_spec_eq (c : Command) (d : LayoutDatabase) :
    (c.undo d).1.spec = c.spec := by
  cases c with
  | add cid g ii =>
    cases ii with
    | none => rfl
    | some idx =>
      cases hg : d.get_cell cid <;> simp [Command.undo, hg, Command.spec]
  | remove cid i r =>
    cases r with
    | none => rfl
    | some g =>
      cases hg : d.get_cell cid <;> simp [Command.undo, hg, Command.spec]
  | move cid idxs dlt =>
    cases hg : d.get_cell cid <;> simp [Command.undo, hg, Command.spec]

theorem execute_db_spec (c : Command) (d : LayoutDatabase) :
    (c.execute d).2 = applySpec d c.spec := by
  cases c with
  | add cid g ii =>
    cases hg : d.get_cell cid <;>
      simp [Command.execute, applySpec, CmdSpec.init, Command.spec, hg]
  | remove cid i r =>
    cases hg : d.get_cell cid <;>
      simp [Command.execute, applySpec, CmdSpec.init, Command.spec, hg]
  | move cid idxs dlt =>
    cases hg : d.get_cell cid <;>
      simp [Command.execute, applySpec, CmdSpec.init, Command.spec, hg]

/-! Sequence-level lemmas for the journal. -/

theorem undoN_succ_outer (s : CommandHistory × LayoutDatabase) (n : Nat) :
    undoN s (n + 1) = ((undoN s n).1.undoStep (undoN s n).2).2 := by
  induction n generalizing s with
  | zero => rfl
  | succ n ih =>
    show undoN ((s.1.undoStep s.2).2) (n + 1) = _
    rw [ih]
    rfl

theorem undoN_empty (r : List Command) (d : LayoutDatabase) (k : Nat) :
    undoN (⟨[], r⟩, d) k = (⟨[], r⟩, d) := by
  induction k with
  | zero => rfl
  | succ k ih =>
    show undoN ((CommandHistory.undoStep ⟨[], r⟩ d).2) k = _
    exact ih

theorem execList_undoN (cs : List Command) (hu : List Command) (db : LayoutDatabase) :
    ∃ rs db2, undoN (execList (⟨hu, []⟩, db) cs) cs.length = (⟨hu, rs⟩, db2) ∧
      rs.map Command.spec = cs.map Command.spec ∧
      cellsShape db2.cells = cellsShape db.cells := by
  induction cs generalizing hu db with
  | nil => exact ⟨[], db, rfl, rfl, rfl⟩
  | cons c cs ih =>
    rcases hcd : c.execute db with ⟨c1, db1⟩
    obtain ⟨rs, db2, heq, hspec, hshape⟩ := ih (c1 :: hu) db1
    rcases hud : c1.undo db2 with ⟨c2, db3⟩
    have hx : execList (⟨hu, []⟩, db) (c :: cs) = execList (⟨c1 :: hu, []⟩, db1) cs := by
      simp [execList, CommandHistory.execute, hcd]
    have hc1spec : c1.spec = c.spec := by
      have hh := execute_spec_eq c db
      rw [hcd] at hh
      exact hh
    have hc2spec : c2.spec = c1.spec := by
      have hh := undo_spec_eq c1 db2
      rw [hud] at hh
      exact hh
    have hshape3 : cellsShape db3.cells = cellsShape db.cells := by
      have h1 := (undo_congr c1 hshape).2
      rw [hud] at h1
      have h2 := execute_undo_inv c db
      rw [hcd] at h2
      exact h1.trans h2
    refine ⟨c2 :: rs, db3, ?_, ?_, hshape3⟩
    · show undoN (execList (⟨hu, []⟩, db) (c :: cs)) (cs.length + 1) = _
      rw [hx, undoN_succ_outer, heq]
      simp [CommandHistory.undoStep, hud]
    · simp [hc2spec, hc1spec, hspec]

theorem execList_db (cs : List Command) (h : CommandHistory) (db : LayoutDatabase) :
    (execList (h, db) cs).2 = applyRun db (cs.map Command.spec) := by
  induction cs generalizing h db with
  | nil => rfl
  | cons c cs ih =>
    rcases hcd : c.execute db with ⟨c1, db1⟩
    have hx : execList (h, db) (c :: cs) =
        execList (⟨c1 :: h.undo_stack, []⟩, db1) cs := by
      simp [execList, CommandHistory.execute, hcd]
    rw [hx]
    have hdb1 : db1 = applySpec db c.spec := by
      have hh := execute_db_spec c db
      rw [hcd] at hh
      exact hh
    simp [applyRun, ih, hdb1]

theorem applySpec_shape_congr {d1 d2 : LayoutDatabase} (s : CmdSpec)
    (h : cellsShape d1.cells = cellsShape d2.cells) :
    cellsShape (applySpec d1 s).cells = cellsShape (applySpec d2 s).cells :=
  (execute_congr s.init h).2

theorem redoN_shape (rs : List Command) (k : Nat) (hk : k ≤ rs.length)
    (us : List Command) (d T : LayoutDatabase)
    (h : cellsShape d.cells = cellsShape T.cells) :
    cellsShape (redoN (⟨us, rs⟩, d) k).2.cells =
      cellsShape (applyRun T ((rs.take k).map Command.spec)).cells := by
  induction k generalizing rs us d T with
  | zero => simpa [applyRun] using h
  | succ k ih =>
    cases rs with
    | nil => simp at hk
    | cons r rest =>
      rcases hrd : r.execute d with ⟨r1, d1⟩
      have hstep : redoN (⟨us, r :: rest⟩, d) (k + 1) =
          redoN (⟨r1 :: us, rest⟩, d1) k := by
        show redoN ((CommandHistory.redoStep ⟨us, r :: rest⟩ d).2) k = _
        simp [CommandHistory.redoStep, hrd]
      rw [hstep]
      have hd1 : cellsShape d1.cells = cellsShape (applySpec T r.spec).cells := by
        have h1 := execute_db_spec r d
        rw [hrd] at h1
        have h1x : d1 = applySpec d r.spec := h1
        rw [h1x]
        exact applySpec_shape_congr r.spec h
      have hrec := ih rest (by simpa using hk) (r1 :: us) d1 (applySpec T r.spec) hd1
      rw [hrec]
      simp [applyRun]

/-! ## Claim C1: main theorem, counterexample and witness -/

/-- C1 (amended): for every database and every sequence of N commands built
through the public constructors, executing all N through
`CommandHistory::execute` and then undoing N times restores every cell field
except the `modified` dirty-flag (compared via `cellsShape`, which erases
that flag on both sides); after such a run, undoing k more times (no-ops on
the empty undo stack) and then redoing k times reaches, again up to the
dirty flags, the state after the first k commands; and `execute` always
clears the redo stack, so a `redo()` right after it returns failure. -/
theorem c1_journal_undo_redo (db : LayoutDatabase) (specs : List CmdSpec)
    (k : Nat) (hk : k ≤ specs.length) :
    cellsShape (undoN (execList (⟨[], []⟩, db) (specs.map CmdSpec.init))
        specs.length).2.cells = cellsShape db.cells ∧
    cellsShape (redoN (undoN (undoN (execList (⟨[], []⟩, db)
        (specs.map CmdSpec.init)) specs.length) k) k).2.cells =
      cellsShape (execList (⟨[], []⟩, db)
        ((specs.take k).map CmdSpec.init)).2.cells ∧
    (∀ (h : CommandHistory) (d : LayoutDatabase) (c : Command),
      (h.execute c d).1.redo_stack = [] ∧
      ((h.execute c d).1.redoStep (h.execute c d).2).1 = false) := by
  obtain ⟨rs, db2, heq, hspec, hshape⟩ :=
    execList_undoN (specs.map CmdSpec.init) [] db
  have hlen : (specs.map CmdSpec.init).length = specs.length := by simp
  rw [hlen] at heq
  have hspec' : rs.map Command.spec = specs := by
    rw [hspec, List.map_map]
    have : (Command.spec ∘ CmdSpec.init) = id := by
      funext s
      exact spec_init s
    rw [this, List.map_id]
  have hrslen : rs.length = specs.length := by
    have hh := congrArg List.length hspec'
    simpa using hh
  refine ⟨?_, ?_, ?_⟩
  · rw [heq]
    exact hshape
  · rw [heq, undoN_empty]
    have hred := redoN_shape rs k (by rw [hrslen]; exact hk) [] db2 db hshape
    have htake : (rs.take k).map Command.spec = specs.take k := by
      rw [List.map_take, hspec']
    rw [htake] at hred
    rw [hred]
    have hrhs : (execList (⟨[], []⟩, db) ((specs.take k).map CmdSpec.init)).2 =
        applyRun db (specs.take k) := by
      rw [execList_db, List.map_map]
      have : (Command.spec ∘ CmdSpec.init) = id := by
        funext s
        exact spec_init s
      rw [this, List.map_id]
    rw [hrhs]
  · intro hh dd cc
    rcases hcd : cc.execute dd with ⟨c1, d1⟩
    constructor
    · simp [CommandHistory.execute, hcd]
    · simp [CommandHistory.execute, CommandHistory.redoStep, hcd]

/-- Witness for C1 on a concrete run: one add command on `dbA`, k = 1. -/
theorem c1_journal_undo_redo_witness :
    cellsShape (undoN (execList (⟨[], []⟩, dbA)
        ([CmdSpec.add 1 gRect1].map CmdSpec.init)) 1).2.cells =
      cellsShape dbA.cells :=
  (c1_journal_undo_redo dbA [CmdSpec.add 1 gRect1] 1 (by decide)).1

/-- Counterexample to C1 as stated: executing one AddGeometry command on a
cell whose dirty flag is clear and undoing it does not restore the cell map
structurally — the `modified` flag stays `true`. -/
theorem c1_modified_flag_counterexample :
    (undoN (execList (⟨[], []⟩, dbA) ([CmdSpec.add 1 gRect1].map CmdSpec.init))
        1).2.cells ≠ dbA.cells := by
  decide

/-! ## Spatial index (`opensilicon-core/src/spatial.rs`, claim C8) -/

/-- An entry of the spatial index (`SpatialEntry`). -/
structure SpatialEntry where
  geometry_index : Nat
  bbox : BBox
deriving DecidableEq, Repr

/-- Modelled from the spec: the index wraps `rstar::RTree` (external crate).
The claims are about the query results as sets of entries, so the R-tree is
modelled by its contents; `build` bulk-loads exactly the given entries. -/
abbrev SpatialIndex := List SpatialEntry

/-- SpatialIndex::build. -/
def SpatialIndex.build (entries : List SpatialEntry) : SpatialIndex := entries

/-- SpatialIndex::insert. -/
def SpatialIndex.insert (idx : SpatialIndex) (e : SpatialEntry) : SpatialIndex :=
  e :: idx

/-- Modelled from the spec: `locate_all_at_point` returns the entries whose
envelope contains the point, boundary-inclusive — the same predicate as
`BBox::contains_point` on the entry's bbox, which the envelope is built
from. -/
def SpatialIndex.query_point (idx : SpatialIndex) (p : Point) : List SpatialEntry :=
  idx.filter (fun e => e.bbox.contains_point p)

/-- Modelled from the spec: `locate_in_envelope_intersecting` returns the
entries whose envelope intersects the viewport, boundary-inclusive — the
same predicate as `BBox::intersects`. -/
def SpatialIndex.query_viewport (idx : SpatialIndex) (vp : BBox) : List SpatialEntry :=
  idx.filter (fun e => e.bbox.intersects vp)

/-- SpatialIndex::len. -/
def SpatialIndex.len (idx : SpatialIndex) : Nat := List.length idx

/-- The first sample entry of the claim: bbox [0,0]-[10,10]. -/
def entry0 : SpatialEntry := ⟨0, ⟨⟨0, 0⟩, ⟨10, 10⟩⟩⟩

/-- The second sample entry of the claim: bbox [20,20]-[30,30]. -/
def entry1 : SpatialEntry := ⟨1, ⟨⟨20, 20⟩, ⟨30, 30⟩⟩⟩

/-- C8: on the index built from the two sample bounding boxes,
`query_point((5,5))` returns exactly the first entry, `query_point((25,25))`
exactly the second, and `query_viewport([-5,-5]-[15,15])` exactly the first;
in general `query_point` returns exactly the entries whose bbox contains the
point boundary-inclusively, and `query_viewport` exactly the entries whose
bbox intersects the viewport boundary-inclusively. -/
theorem c8_spatial_queries :
    (SpatialIndex.build [entry0, entry1]).query_point ⟨5, 5⟩ = [entry0] ∧
    (SpatialIndex.build [entry0, entry1]).query_point ⟨25, 25⟩ = [entry1] ∧
    (SpatialIndex.build [entry0, entry1]).query_viewport ⟨⟨-5, -5⟩, ⟨15, 15⟩⟩ =
      [entry0] ∧
    (∀ (idx : SpatialIndex) (p : Point) (e : SpatialEntry),
      e ∈ idx.query_point p ↔ e ∈ idx ∧ e.bbox.contains_point p = true) ∧
    (∀ (idx : SpatialIndex) (vp : BBox) (e : SpatialEntry),
      e ∈ idx.query_viewport vp ↔ e ∈ idx ∧ e.bbox.intersects vp = true) := by
  refine ⟨by decide, by decide, by decide, ?_, ?_⟩
  · intro idx p e
    simp [SpatialIndex.query_point, List.mem_filter]
  · intro idx vp e
    simp [SpatialIndex.query_viewport, List.mem_filter]

/-! ## GDS-II codec (`opensilicon-io/src/gds.rs`): the excess-64 real -/

/-- Rust `f64 as i32`: truncate toward zero, saturating at the i32 bounds. -/
def castI32 (q : ℚ) : Int :=
  let t : Int := q.num.tdiv (q.den : Int)
  if t < -2147483648 then -2147483648
  else if 2147483647 < t then 2147483647
  else t

/-- Rust `f64 as u64`: truncate toward zero, clamping to the u64 range. -/
def castU64 (q : ℚ) : Nat :=
  let t : Int := q.num.tdiv (q.den : Int)
  if t < 0 then 0
  else if (18446744073709551615 : Int) < t then 18446744073709551615
  else t.toNat

/-- f64::abs. -/
def absQ (q : ℚ) : ℚ := if q < 0 then -q else q

/-- First normalization loop of `f64_to_gds_real8`: divide by 16 while the
value is at least 1, capping the exponent at 127.  The Rust `while` loop
always terminates (the exponent strictly increases toward the cap), so a
fuel of 256 is never exhausted. -/
def gdsNormDown : ℚ → Int → Nat → ℚ × Int
  | val, e, 0 => (val, e)
  | val, e, fuel + 1 =>
    if 1 ≤ val ∧ e < 127 then gdsNormDown (val / 16) (e + 1) fuel else (val, e)

/-- Second normalization loop: multiply by 16 while the value is below 1/16,
capping the exponent at −64. -/
def gdsNormUp : ℚ → Int → Nat → ℚ × Int
  | val, e, 0 => (val, e)
  | val, e, fuel + 1 =>
    if val < 1 / 16 ∧ -64 < e then gdsNormUp (val * 16) (e - 1) fuel else (val, e)

/-- f64_to_gds_real8 (`gds.rs` lines 161–193): sign bit plus excess-64
exponent byte, then a 56-bit mantissa in big-endian order.  The
normalization starts its exponent counter at 1, exactly as the source
does. -/
def f64_to_gds_real8 (value : ℚ) : List Nat :=
  if value = 0 then [0, 0, 0, 0, 0, 0, 0, 0]
  else
    let signBit : Nat := if value < 0 then 128 else 0
    let p1 := gdsNormDown (absQ value) 1 256
    let p2 := gdsNormUp p1.1 p1.2 256
    let mantissa : Nat := castU64 (p2.1 * 72057594037927936)
    let expByte : Nat := signBit + ((p2.2 + 64) % 256).toNat % 128
    [expByte,
     mantissa / 281474976710656 % 256,
     mantissa / 1099511627776 % 256,
     mantissa / 4294967296 % 256,
     mantissa / 16777216 % 256,
     mantissa / 65536 % 256,
     mantissa / 256 % 256,
     mantissa % 256]

/-- Nonnegative powers of 16 over the rationals. -/
def pow16N : Nat → ℚ
  | 0 => 1
  | n + 1 => pow16N n * 16

/-- Integer powers of 16 (`16.0_f64.powi`, exact power-of-two scaling). -/
def pow16 : Int → ℚ
  | .ofNat n => pow16N n
  | .negSucc n => 1 / pow16N (n + 1)

/-- gds_real8_to_f64 (`gds.rs` lines 143–158): all-zero bytes decode to 0,
otherwise sign · mantissa/2^56 · 16^(exponent−64). -/
def gds_real8_to_f64 (bytes : List Nat) : ℚ :=
  if bytes.all (fun b => b = 0) then 0
  else
    let b0 := bytes.headD 0
    let sign : ℚ := if 128 ≤ b0 % 256 then -1 else 1
    let exponent : Int := ((b0 % 128 : Nat) : Int) - 64
    let mantissa : Nat := (bytes.drop 1).foldl (fun m b => m * 256 + b) 0
    sign * ((mantissa : ℚ) / 72057594037927936) * pow16 exponent

/-! ## Claim C3 -/

unseal Rat.mul Rat.inv Rat.add Rat.sub in
/-- C3 evaluated on the code: the zero cases behave exactly as claimed, but
the round-trip of 1.0 yields 16.0 — the encoder writes exponent 66 and
mantissa 2^52, which the excess-64 format (and the decoder) read as
2^52/2^56 · 16^2 = 16.  The relative error is 15, far beyond the claimed
1e-10 tolerance of the repository's own `test_gds_real8_roundtrip`. -/
theorem c3_real8_roundtrip_off_by_16 :
    gds_real8_to_f64 (f64_to_gds_real8 1) = 16 ∧
    ¬ (absQ (gds_real8_to_f64 (f64_to_gds_real8 1) - 1) ≤
        absQ 1 * (1 / 10000000000) + 1 / 1000000000000000) ∧
    f64_to_gds_real8 0 = [0, 0, 0, 0, 0, 0, 0, 0] ∧
    gds_real8_to_f64 [0, 0, 0, 0, 0, 0, 0, 0] = 0 := by
  refine ⟨by decide, by decide, by decide, by decide⟩

/-! ## Boundary classification (`read_boundary` tail, claim C4) -/

/-- The closing-vertex strip at the end of `read_boundary`: drop the last
point when the boundary repeats its first point. -/
def stripClosing (points : List Point) : List Point :=
  if 1 < points.length ∧ points.head? = points.getLast? then points.dropLast
  else points

/-- is_axis_aligned_rect (`gds.rs` lines 600–611): exactly 4 points with
exactly two distinct x and two distinct y coordinates.  Distinctness of
`f64::to_bits` in the source becomes numeric distinctness of rationals. -/
def is_axis_aligned_rect (points : List Point) : Bool :=
  if points.length ≠ 4 then false
  else
    decide ((points.map Point.x).dedup.length = 2) &&
    decide ((points.map Point.y).dedup.length = 2)

/-- The tail of `read_boundary` (`gds.rs` lines 400–421): strip the closing
vertex, drop empty boundaries, collapse an axis-aligned 4-point boundary
into a `Rect` built from the points' bounding box, and keep everything else
as a `Polygon`.  (`from_points` cannot be `none` on the nonempty list, so
the `none` arm is unreachable, mirroring the source's `unwrap`.) -/
def finishBoundary (layer : LayerId) (points0 : List Point) : Option GeomPrimitive :=
  let points := stripClosing points0
  if points.isEmpty then none
  else if points.length = 4 ∧ is_axis_aligned_rect points then
    match BBox.from_points points with
    | some bb => some (.rect (Rect.new layer bb.min.x bb.min.y bb.max.x bb.max.y))
    | none => none
  else some (.polygon (Polygon.new layer points))

/-- C4: a boundary whose stripped point list has exactly 4 points becomes a
`Rect` with the points' bounding box as corners when there are exactly two
distinct x and two distinct y coordinates, and a `Polygon` over exactly the
stripped points otherwise. -/
theorem c4_boundary_rect_detection (layer : LayerId) (points0 : List Point)
    (hlen : (stripClosing points0).length = 4) :
    ((((stripClosing points0).map Point.x).dedup.length = 2 ∧
      ((stripClosing points0).map Point.y).dedup.length = 2) →
      finishBoundary layer points0 =
        (BBox.from_points (stripClosing points0)).map
          (fun bb => .rect (Rect.new layer bb.min.x bb.min.y bb.max.x bb.max.y))) ∧
    (¬ (((stripClosing points0).map Point.x).dedup.length = 2 ∧
      ((stripClosing points0).map Point.y).dedup.length = 2) →
      finishBoundary layer points0 =
        some (.polygon (Polygon.new layer (stripClosing points0)))) := by
  have hne : (stripClosing points0).isEmpty = false := by
    cases hsp : stripClosing points0 with
    | nil => rw [hsp] at hlen; simp at hlen
    | cons a l => simp
  constructor
  · rintro ⟨hx, hy⟩
    have har : is_axis_aligned_rect (stripClosing points0) = true := by
      simp [is_axis_aligned_rect, hlen, hx, hy]
    rcases hbb : BBox.from_points (stripClosing points0) with _ | bb
    · exfalso
      cases hsp : stripClosing points0 with
      | nil => rw [hsp] at hlen; simp at hlen
      | cons a l => rw [hsp] at hbb; simp [BBox.from_points] at hbb
    · simp [finishBoundary, hne, hlen, har, hbb]
  · intro hnot
    have har : is_axis_aligned_rect (stripClosing points0) = false := by
      by_cases hx : ((stripClosing points0).map Point.x).dedup.length = 2
      · have hy : ¬ ((stripClosing points0).map Point.y).dedup.length = 2 :=
          fun hy => hnot ⟨hx, hy⟩
        simp [is_axis_aligned_rect, hlen, hx, hy]
      · simp [is_axis_aligned_rect, hlen, hx]
    simp [finishBoundary, hne, hlen, har]

/-- The four corners of an axis-aligned unit-10 square, already stripped. -/
def sqPoints : List Point := [⟨0, 0⟩, ⟨10, 0⟩, ⟨10, 10⟩, ⟨0, 10⟩]

/-- Witness for C4 at the concrete square: it is collapsed to a `Rect` from
its bounding box. -/
theorem c4_boundary_rect_detection_witness :
    finishBoundary 3 sqPoints =
      (BBox.from_points (stripClosing sqPoints)).map
        (fun bb => .rect (Rect.new 3 bb.min.x bb.min.y bb.max.x bb.max.y)) :=
  (c4_boundary_rect_detection 3 sqPoints (by decide)).1 (by decide)

/-! ## GDS-II byte-level codec (claim C2)

Byte streams are `List Nat` with elements below 256.  The record type
constants below are the ones the reader and writer dispatch on. -/

def rtHEADER : Nat := 0x0002
def rtBGNLIB : Nat := 0x0102
def rtLIBNAME : Nat := 0x0206
def rtUNITS : Nat := 0x0305
def rtENDLIB : Nat := 0x0400
def rtBGNSTR : Nat := 0x0502
def rtSTRNAME : Nat := 0x0606
def rtENDSTR : Nat := 0x0700
def rtBOUNDARY : Nat := 0x0800
def rtPATH : Nat := 0x0900
def rtSREF : Nat := 0x0A00
def rtAREF : Nat := 0x0B00
def rtTEXT : Nat := 0x0C00
def rtLAYER : Nat := 0x0D02
def rtDATATYPE : Nat := 0x0E02
def rtWIDTH : Nat := 0x0F03
def rtXY : Nat := 0x1003
def rtENDEL : Nat := 0x1100
def rtSNAME : Nat := 0x1206
def rtNODE : Nat := 0x1500
def rtSTRANS : Nat := 0x1A01
def rtMAG : Nat := 0x1B05
def rtANGLE : Nat := 0x1C05
def rtBOX : Nat := 0x2D00

/-- Big-endian bytes of a `u16`. -/
def beU16 (n : Nat) : List Nat := [n / 256 % 256, n % 256]

/-- i16::to_be_bytes — the two's-complement low 16 bits, big-endian. -/
def beI16 (v : Int) : List Nat := beU16 ((v % 65536).toNat)

/-- i32::to_be_bytes. -/
def beI32 (v : Int) : List Nat :=
  let m := (v % 4294967296).toNat
  [m / 16777216 % 256, m / 65536 % 256, m / 256 % 256, m % 256]

/-- i16::from_be_bytes on one exact chunk (`% 256` models the `u8` type of
the stream bytes). -/
def i16val (b0 b1 : Nat) : Int :=
  let v := (b0 % 256) * 256 + b1 % 256
  if 32768 ≤ v then (v : Int) - 65536 else (v : Int)

/-- i32::from_be_bytes on one exact chunk. -/
def i32val (b0 b1 b2 b3 : Nat) : Int :=
  let v := ((b0 % 256) * 256 + b1 % 256) * 65536 + (b2 % 256) * 256 + b3 % 256
  if 2147483648 ≤ v then (v : Int) - 4294967296 else (v : Int)

/-- GdsRecord::as_i16_vec — `chunks_exact(2)` drops a trailing odd byte. -/
def toI16s : List Nat → List Int
  | b0 :: b1 :: rest => i16val b0 b1 :: toI16s rest
  | _ => []

/-- GdsRecord::as_i32_vec. -/
def toI32s : List Nat → List Int
  | b0 :: b1 :: b2 :: b3 :: rest => i32val b0 b1 b2 b3 :: toI32s rest
  | _ => []

/-- GdsRecord::as_f64_vec — 8-byte chunks through the excess-64 decoder. -/
def toF64s : List Nat → List ℚ
  | b0 :: b1 :: b2 :: b3 :: b4 :: b5 :: b6 :: b7 :: rest =>
    gds_real8_to_f64 [b0, b1, b2, b3, b4, b5, b6, b7] :: toF64s rest
  | _ => []

/-- `vals[0] as u32` on an i16 value: sign extension. -/
def u32OfI16 (v : Int) : Nat := (v % 4294967296).toNat

/-- `layer_id as i16` on a u32 value: truncation to the low 16 bits, read as
two's complement. -/
def i16OfU32 (n : Nat) : Int :=
  let m := n % 65536
  if 32768 ≤ m then (m : Int) - 65536 else (m : Int)

/-- `trim_end_matches` of NUL on the byte level: drop all trailing zeros. -/
def dropTrailZeros (s : List Nat) : List Nat :=
  ((s.reverse).dropWhile (fun b => b = 0)).reverse

/-- UTF-8 bytes of `b as char` for a stream byte `b < 256` — the identity on
ASCII, a two-byte sequence for the Latin-1 range. -/
def utf8OfByte (b : Nat) : List Nat :=
  if b < 128 then [b] else [192 + b / 64, 128 + b % 64]

/-- GdsRecord::as_string, viewed as the byte sequence of the resulting Rust
`String` (bytes → chars → trim trailing NUL → UTF-8 re-encoding). -/
def asString (data : List Nat) : List Nat :=
  (dropTrailZeros data).flatMap utf8OfByte

/-- The XY coordinate pairs scaled by the database unit `u` (chunks of two,
an odd trailing coordinate dropped by `chunks_exact`). -/
def pairsToPoints (u : ℚ) : List Int → List Point
  | a :: b :: rest => ⟨(a : ℚ) * u, (b : ℚ) * u⟩ :: pairsToPoints u rest
  | _ => []

/-- A parsed GDS record. -/
structure GdsRec where
  rtype : Nat
  data : List Nat
deriving DecidableEq, Repr

/-- One record as emitted by `GdsWriter::write_record`:
`[total_length u16][record_type u16][payload]`; the length is truncated to
16 bits by the `as u16` cast. -/
def encodeRecord (rtype : Nat) (data : List Nat) : List Nat :=
  beU16 ((data.length + 4) % 65536) ++ beU16 rtype ++ data

/-- Result of `read_record`: clean EOF (`Ok(None)`), an error, or one
record plus the remaining stream. -/
inductive RecResult where
  | eof
  | err
  | ok (rec : GdsRec) (rest : List Nat)
deriving DecidableEq, Repr

/-- GdsReader::read_record: fewer than two remaining bytes is a clean EOF
(the caught UnexpectedEof), a total length below 4 is an InvalidRecord
error, an incomplete type or payload is an I/O error. -/
def readRecord (bs : List Nat) : RecResult :=
  match bs with
  | b0 :: b1 :: rest =>
    let totalLen := b0 * 256 + b1
    if totalLen < 4 then .err
    else
      match rest with
      | t0 :: t1 :: rest2 =>
        let dataLen := totalLen - 4
        if dataLen ≤ rest2.length then
          .ok ⟨t0 * 256 + t1, rest2.take dataLen⟩ (rest2.drop dataLen)
        else .err
      | _ => .err
  | _ => .eof

/-- GdsReader::skip_to_endel (fuel-bounded; the fuel is re-seeded with the
remaining stream length at every call site, and every iteration consumes at
least four bytes, so it never runs out on inputs the Rust loop handles). -/
def skipToEndel : Nat → List Nat → Option (List Nat)
  | 0, _ => none
  | fuel + 1, bs =>
    match readRecord bs with
    | .eof => some bs
    | .err => none
    | .ok rec rest =>
      if rec.rtype = rtENDEL then some rest else skipToEndel fuel rest

/-- The tail of `read_path`: an empty point list yields nothing. -/
def finishPath (layer : LayerId) (width : ℚ) (points : List Point) :
    Option GeomPrimitive :=
  if points.isEmpty then none else some (.path (Path.new layer points width))

/-- The tail of `read_box`: strip the closing vertex and always emit the
bounding-box rectangle. -/
def finishBox (layer : LayerId) (points0 : List Point) : Option GeomPrimitive :=
  let points := stripClosing points0
  if points.isEmpty then none
  else
    match BBox.from_points points with
    | some bb => some (.rect (Rect.new layer bb.min.x bb.min.y bb.max.x bb.max.y))
    | none => none

/-- The tail of `read_sref`: an empty target name yields nothing; the
instance gets the nil UUID (0) as its unresolved target and a fresh v4 UUID
(modelled as 0, never compared) as its own id. -/
def finishSref (cell_name : List Nat) (t : Transform) (pos : Point) :
    Option CellInstance :=
  if cell_name.isEmpty then none
  else some ⟨0, 0, cell_name, { t with offset := pos }⟩

/-- The record loop of GdsReader::read_boundary; `u` is the database unit in
μm, `layer` and `points` the loop accumulators (initially 0 and empty). -/
def readBoundaryLoop (u : ℚ) : Nat → Nat → List Point → List Nat →
    Option (Option GeomPrimitive × List Nat)
  | 0, _, _, _ => none
  | fuel + 1, layer, points, bs =>
    match readRecord bs with
    | .eof => some (finishBoundary layer points, bs)
    | .err => none
    | .ok rec rest =>
      if rec.rtype = rtLAYER then
        match toI16s rec.data with
        | v :: _ => readBoundaryLoop u fuel (u32OfI16 v) points rest
        | [] => readBoundaryLoop u fuel layer points rest
      else if rec.rtype = rtXY then
        readBoundaryLoop u fuel layer (points ++ pairsToPoints u (toI32s rec.data)) rest
      else if rec.rtype = rtENDEL then
        some (finishBoundary layer points, rest)
      else readBoundaryLoop u fuel layer points rest

/-- The record loop of GdsReader::read_path. -/
def readPathLoop (u : ℚ) : Nat → Nat → ℚ → List Point → List Nat →
    Option (Option GeomPrimitive × List Nat)
  | 0, _, _, _, _ => none
  | fuel + 1, layer, width, points, bs =>
    match readRecord bs with
    | .eof => some (finishPath layer width points, bs)
    | .err => none
    | .ok rec rest =>
      if rec.rtype = rtLAYER then
        match toI16s rec.data with
        | v :: _ => readPathLoop u fuel (u32OfI16 v) width points rest
        | [] => readPathLoop u fuel layer width points rest
      else if rec.rtype = rtWIDTH then
        match toI32s rec.data with
        | v :: _ => readPathLoop u fuel layer ((v : ℚ) * u) points rest
        | [] => readPathLoop u fuel layer width points rest
      else if rec.rtype = rtXY then
        readPathLoop u fuel layer width (points ++ pairsToPoints u (toI32s rec.data)) rest
      else if rec.rtype = rtENDEL then
        some (finishPath layer width points, rest)
      else readPathLoop u fuel layer width points rest

/-- The record loop of GdsReader::read_sref. -/
def readSrefLoop (u : ℚ) : Nat → List Nat → Transform → Point → List Nat →
    Option (Option CellInstance × List Nat)
  | 0, _, _, _, _ => none
  | fuel + 1, cname, t, pos, bs =>
    match readRecord bs with
    | .eof => some (finishSref cname t pos, bs)
    | .err => none
    | .ok rec rest =>
      if rec.rtype = rtSNAME then
        readSrefLoop u fuel (asString rec.data) t pos rest
      else if rec.rtype = rtSTRANS then
        match toI16s rec.data with
        | v :: _ => readSrefLoop u fuel cname { t with mirror_x := decide (v < 0) } pos rest
        | [] => readSrefLoop u fuel cname t pos rest
      else if rec.rtype = rtMAG then
        match toF64s rec.data with
        | v :: _ => readSrefLoop u fuel cname { t with scale := v } pos rest
        | [] => readSrefLoop u fuel cname t pos rest
      else if rec.rtype = rtANGLE then
        match toF64s rec.data with
        | v :: _ => readSrefLoop u fuel cname { t with rotation := v } pos rest
        | [] => readSrefLoop u fuel cname t pos rest
      else if rec.rtype = rtXY then
        match toI32s rec.data with
        | a :: b :: _ => readSrefLoop u fuel cname t ⟨(a : ℚ) * u, (b : ℚ) * u⟩ rest
        | _ => readSrefLoop u fuel cname t pos rest
      else if rec.rtype = rtENDEL then
        some (finishSref cname t pos, rest)
      else readSrefLoop u fuel cname t pos rest

/-- The record loop of GdsReader::read_box. -/
def readBoxLoop (u : ℚ) : Nat → Nat → List Point → List Nat →
    Option (Option GeomPrimitive × List Nat)
  | 0, _, _, _ => none
  | fuel + 1, layer, points, bs =>
    match readRecord bs with
    | .eof => some (finishBox layer points, bs)
    | .err => none
    | .ok rec rest =>
      if rec.rtype = rtLAYER then
        match toI16s rec.data with
        | v :: _ => readBoxLoop u fuel (u32OfI16 v) points rest
        | [] => readBoxLoop u fuel layer points rest
      else if rec.rtype = rtXY then
        readBoxLoop u fuel layer (points ++ pairsToPoints u (toI32s rec.data)) rest
      else if rec.rtype = rtENDEL then
        some (finishBox layer points, rest)
      else readBoxLoop u fuel layer points rest

/-- Byte sequence of the default cell name "unnamed" in `Cell::new`. -/
def unnamedBytes : List Nat := [117, 110, 110, 97, 109, 101, 100]

/-- Byte sequence of "imported", the name `GdsReader::read` starts from. -/
def importedBytes : List Nat := [105, 109, 112, 111, 114, 116, 101, 100]

/-- The record loop of GdsReader::read_structure, accumulating one cell. -/
def readStructLoop (u : ℚ) : Nat → Cell → List Nat → Option (Cell × List Nat)
  | 0, _, _ => none
  | fuel + 1, cell, bs =>
    match readRecord bs with
    | .eof => some (cell, bs)
    | .err => none
    | .ok rec rest =>
      if rec.rtype = rtSTRNAME then
        readStructLoop u fuel { cell with name := asString rec.data } rest
      else if rec.rtype = rtBOUNDARY then
        match readBoundaryLoop u rest.length 0 [] rest with
        | some (some g, rest2) => readStructLoop u fuel (cell.add_geometry g) rest2
        | some (none, rest2) => readStructLoop u fuel cell rest2
        | none => none
      else if rec.rtype = rtPATH then
        match readPathLoop u rest.length 0 0 [] rest with
        | some (some g, rest2) => readStructLoop u fuel (cell.add_geometry g) rest2
        | some (none, rest2) => readStructLoop u fuel cell rest2
        | none => none
      else if rec.rtype = rtSREF then
        match readSrefLoop u rest.length [] Transform.default ⟨0, 0⟩ rest with
        | some (some inst, rest2) => readStructLoop u fuel (cell.add_instance inst) rest2
        | some (none, rest2) => readStructLoop u fuel cell rest2
        | none => none
      else if rec.rtype = rtBOX then
        match readBoxLoop u rest.length 0 [] rest with
        | some (some g, rest2) => readStructLoop u fuel (cell.add_geometry g) rest2
        | some (none, rest2) => readStructLoop u fuel cell rest2
        | none => none
      else if rec.rtype = rtTEXT ∨ rec.rtype = rtNODE ∨ rec.rtype = rtAREF then
        match skipToEndel rest.length rest with
        | some rest2 => readStructLoop u fuel cell rest2
        | none => none
      else if rec.rtype = rtENDSTR then
        some (cell, rest)
      else readStructLoop u fuel cell rest

/-- The record loop of GdsReader::read_lib, carrying the database under
construction and the database unit.  Fresh cells get the number of cells
read so far as their id (the model of `Uuid::new_v4`: distinct fresh ids,
which is what v4 UUIDs provide with overwhelming probability). -/
def readLibLoop : Nat → LayoutDatabase → ℚ → List Nat → Option LayoutDatabase
  | 0, _, _, _ => none
  | fuel + 1, db, u, bs =>
    match readRecord bs with
    | .eof => some db
    | .err => none
    | .ok rec rest =>
      if rec.rtype = rtBGNLIB then readLibLoop fuel db u rest
      else if rec.rtype = rtLIBNAME then
        readLibLoop fuel { db with name := asString rec.data } u rest
      else if rec.rtype = rtUNITS then
        match toF64s rec.data with
        | u0 :: _ :: _ => readLibLoop fuel db (u0 * 1000000) rest
        | _ => readLibLoop fuel db u rest
      else if rec.rtype = rtBGNSTR then
        match readStructLoop u rest.length (Cell.new db.cells.length unnamedBytes) rest with
        | some (cell, rest2) => readLibLoop fuel (db.add_cell cell).2 u rest2
        | none => none
      else if rec.rtype = rtENDLIB then some db
      else readLibLoop fuel db u rest

/-- GdsReader::read — the mandatory HEADER record, then the library loop on
a fresh database named "imported" with the default 0.001 μm database
unit. -/
def readGds (bs : List Nat) : Option LayoutDatabase :=
  match readRecord bs with
  | .eof => none
  | .err => none
  | .ok rec rest =>
    if rec.rtype = rtHEADER then
      readLibLoop rest.length (LayoutDatabase.mkNew 0 importedBytes) (1 / 1000) rest
    else none

/-! ## GDS-II writer (`GdsWriter`, default database unit 0.001 μm) -/

/-- GdsWriter::write_i16_record. -/
def write_i16_record (rtype : Nat) (vals : List Int) : List Nat :=
  encodeRecord rtype (vals.flatMap beI16)

/-- GdsWriter::write_i32_record. -/
def write_i32_record (rtype : Nat) (vals : List Int) : List Nat :=
  encodeRecord rtype (vals.flatMap beI32)

/-- The even-length padding of `write_string_record`. -/
def padEven (s : List Nat) : List Nat :=
  if s.length % 2 = 1 then s ++ [0] else s

/-- GdsWriter::write_string_record. -/
def write_string_record (rtype : Nat) (s : List Nat) : List Nat :=
  encodeRecord rtype (padEven s)

/-- GdsWriter::write_real8_record. -/
def write_real8_record (rtype : Nat) (vals : List ℚ) : List Nat :=
  encodeRecord rtype (vals.flatMap f64_to_gds_real8)

/-- The synthetic timestamp of `write_bgnlib` / `write_cell`. -/
def gdsTimestamp : List Int := [2026, 2, 6, 0, 0, 0, 2026, 2, 6, 0, 0, 0]

/-- The record sequence of GdsWriter::write_rect after the BOUNDARY marker. -/
def rectBody (u : ℚ) (r : Rect) : List Nat :=
  let scale := 1 / u
  write_i16_record rtLAYER [i16OfU32 r.layer_id] ++
  write_i16_record rtDATATYPE [0] ++
  write_i32_record rtXY
    [castI32 (r.lower_left.x * scale), castI32 (r.lower_left.y * scale),
     castI32 (r.upper_right.x * scale), castI32 (r.lower_left.y * scale),
     castI32 (r.upper_right.x * scale), castI32 (r.upper_right.y * scale),
     castI32 (r.lower_left.x * scale), castI32 (r.upper_right.y * scale),
     castI32 (r.lower_left.x * scale), castI32 (r.lower_left.y * scale)] ++
  encodeRecord rtENDEL []

/-- GdsWriter::write_rect: a 5-point closed boundary. -/
def write_rect (u : ℚ) (r : Rect) : List Nat :=
  encodeRecord rtBOUNDARY [] ++ rectBody u r

/-- The record sequence of GdsWriter::write_polygon after the marker: an
n+1-point closed boundary (the first vertex repeated at the end). -/
def polyBody (u : ℚ) (p : Polygon) : List Nat :=
  let scale := 1 / u
  write_i16_record rtLAYER [i16OfU32 p.layer_id] ++
  write_i16_record rtDATATYPE [0] ++
  write_i32_record rtXY
    (p.vertices.flatMap (fun q => [castI32 (q.x * scale), castI32 (q.y * scale)]) ++
     (match p.vertices.head? with
      | some q => [castI32 (q.x * scale), castI32 (q.y * scale)]
      | none => [])) ++
  encodeRecord rtENDEL []

/-- GdsWriter::write_polygon. -/
def write_polygon (u : ℚ) (p : Polygon) : List Nat :=
  encodeRecord rtBOUNDARY [] ++ polyBody u p

/-- The record sequence of GdsWriter::write_path after the PATH marker. -/
def pathBody (u : ℚ) (p : Path) : List Nat :=
  let scale := 1 / u
  write_i16_record rtLAYER [i16OfU32 p.layer_id] ++
  write_i16_record rtDATATYPE [0] ++
  write_i32_record rtWIDTH [castI32 (p.width * scale)] ++
  write_i32_record rtXY
    (p.points.flatMap (fun q => [castI32 (q.x * scale), castI32 (q.y * scale)])) ++
  encodeRecord rtENDEL []

/-- GdsWriter::write_path. -/
def write_path (u : ℚ) (p : Path) : List Nat :=
  encodeRecord rtPATH [] ++ pathBody u p

/-- GdsWriter::write_via: the via is lowered to a rectangle on its cut
layer, sized width×height around its position. -/
def write_via (u : ℚ) (v : Via) : List Nat :=
  write_rect u (Rect.new v.cut_layer
    (v.position.x - v.width / 2) (v.position.y - v.height / 2)
    (v.position.x + v.width / 2) (v.position.y + v.height / 2))

/-- Geometry dispatch in GdsWriter::write_cell. -/
def write_geom (u : ℚ) : GeomPrimitive → List Nat
  | .rect r => write_rect u r
  | .polygon p => write_polygon u p
  | .path p => write_path u p
  | .via v => write_via u v

/-- GdsWriter::write_sref. -/
def write_sref (u : ℚ) (inst : CellInstance) : List Nat :=
  let scale := 1 / u
  encodeRecord rtSREF [] ++
  write_string_record rtSNAME inst.instance_name ++
  (if inst.transform.mirror_x then write_i16_record rtSTRANS [-32768]
   else if ¬ (inst.transform.rotation = 0) ∨ ¬ (inst.transform.scale = 1) then
     write_i16_record rtSTRANS [0]
   else []) ++
  (if ¬ (inst.transform.scale = 1) then
     write_real8_record rtMAG [inst.transform.scale]
   else []) ++
  (if ¬ (inst.transform.rotation = 0) then
     write_real8_record rtANGLE [inst.transform.rotation]
   else []) ++
  write_i32_record rtXY
    [castI32 (inst.transform.offset.x * scale), castI32 (inst.transform.offset.y * scale)] ++
  encodeRecord rtENDEL []

/-- GdsWriter::write_cell: BGNSTR, STRNAME, the geometries, the instances,
ENDSTR. -/
def write_cell (u : ℚ) (c : Cell) : List Nat :=
  write_i16_record rtBGNSTR gdsTimestamp ++
  (write_string_record rtSTRNAME c.name ++
   (c.geometries.flatMap (write_geom u) ++
    (c.instances.flatMap (write_sref u) ++
     encodeRecord rtENDSTR [])))

/-- GdsWriter::write with the default `db_unit_in_um = 0.001`. -/
def writeGds (db : LayoutDatabase) : List Nat :=
  write_i16_record rtHEADER [600] ++
  (write_i16_record rtBGNLIB gdsTimestamp ++
   (write_string_record rtLIBNAME db.name ++
    (write_real8_record rtUNITS
      [(1 / 1000 : ℚ) * (1 / 1000), (1 / 1000 : ℚ) * (1 / 1000000)] ++
     (db.cells.flatMap (fun p => write_cell (1 / 1000) p.2) ++
      encodeRecord rtENDLIB []))))

/-! ## Well-formedness hypotheses of the amended claim C2 -/

/-- Geometry admitted by claim C2 (`Rect`/`Polygon`/`Path` only), with the
bounds the u16 record framing forces: nonempty point lists, XY payloads that
fit in one record, and i16-representable layer ids. -/
def wfGeom : GeomPrimitive → Prop
  | .rect r => r.layer_id < 32768
  | .polygon p => p.layer_id < 32768 ∧ p.vertices ≠ [] ∧ p.vertices.length ≤ 8190
  | .path p => p.layer_id < 32768 ∧ p.points ≠ [] ∧ p.points.length ≤ 8191
  | .via _ => False

instance : DecidablePred wfGeom := fun g =>
  match g with
  | .rect _ => inferInstanceAs (Decidable (_ < _))
  | .polygon _ => inferInstanceAs (Decidable (_ ∧ _ ∧ _))
  | .path _ => inferInstanceAs (Decidable (_ ∧ _ ∧ _))
  | .via _ => inferInstanceAs (Decidable False)

/-- A name that survives the NUL-padded byte→char round-trip: ASCII, no
trailing NUL, and short enough for one record. -/
def wfName (s : List Nat) : Prop :=
  (∀ b ∈ s, b < 128) ∧ s.getLast? ≠ some 0 ∧ s.length ≤ 65530

instance : DecidablePred wfName := fun _ =>
  inferInstanceAs (Decidable (_ ∧ _ ∧ _))

/-- A cell admitted by claim C2: well-formed name, no sub-cell instances,
only well-formed geometry. -/
def wfCell (c : Cell) : Prop :=
  wfName c.name ∧ c.instances = [] ∧ ∀ g ∈ c.geometries, wfGeom g

instance : DecidablePred wfCell := fun _ =>
  inferInstanceAs (Decidable (_ ∧ _ ∧ _))

/-- A database admitted by the amended claim C2. -/
def wfDb (db : LayoutDatabase) : Prop :=
  (∀ b ∈ db.name, b < 256) ∧ db.name.length ≤ 65530 ∧
  ∀ p ∈ db.cells, wfCell p.2

instance : Decidable (wfDb db) :=
  inferInstanceAs (Decidable (_ ∧ _ ∧ _))

/-! ## Record framing lemmas -/

theorem length_encodeRecord (rtype : Nat) (data : List Nat) :
    (encodeRecord rtype data).length = data.length + 4 := by
  simp [encodeRecord, beU16]

theorem length_f64_to_gds_real8 (v : ℚ) : (f64_to_gds_real8 v).length = 8 := by
  unfold f64_to_gds_real8
  split <;> rfl

theorem readRecord_encode (rtype : Nat) (data rest : List Nat)
    (hlen : data.length + 4 ≤ 65535) (hrt : rtype < 65536) :
    readRecord (encodeRecord rtype data ++ rest) = .ok ⟨rtype, data⟩ rest := by
  have h1 : (data.length + 4) % 65536 = data.length + 4 := Nat.mod_eq_of_lt (by omega)
  simp only [encodeRecord, beU16, h1, List.cons_append, List.nil_append,
    List.append_assoc]
  simp only [readRecord]
  have h2 : (data.length + 4) / 256 % 256 * 256 + (data.length + 4) % 256 =
      data.length + 4 := by omega
  rw [h2]
  have h3 : ¬ (data.length + 4 < 4) := by omega
  rw [if_neg h3]
  have h4 : rtype / 256 % 256 * 256 + rtype % 256 = rtype := by omega
  rw [h4]
  have h5 : data.length + 4 - 4 = data.length := by omega
  rw [h5]
  have h6 : data.length ≤ (data ++ rest).length := by simp
  rw [if_pos h6, take_append_self, drop_append_self]

/-! ## Integer payload round-trips -/

theorem toI16s_beI16_cons (v : Int) (h1 : -32768 ≤ v) (h2 : v < 32768)
    (rest : List Nat) :
    toI16s (beI16 v ++ rest) = v :: toI16s rest := by
  simp only [beI16, beU16, List.cons_append, List.nil_append, toI16s, i16val]
  have hv : ((v % 65536).toNat / 256 % 256 % 256) * 256 +
      (v % 65536).toNat % 256 % 256 = (v % 65536).toNat := by omega
  rw [hv]
  congr 1
  split
  · omega
  · omega

theorem toI16s_flatMap_beI16 (vals : List Int)
    (h : ∀ v ∈ vals, -32768 ≤ v ∧ v < 32768) (rest : List Nat) :
    toI16s (vals.flatMap beI16 ++ rest) = vals ++ toI16s rest := by
  induction vals with
  | nil => simp
  | cons v vs ih =>
    rw [List.flatMap_cons, List.append_assoc,
      toI16s_beI16_cons v (h v (by simp)).1 (h v (by simp)).2]
    rw [ih (fun w hw => h w (by simp [hw]))]
    rfl

theorem toI32s_beI32_cons (v : Int) (h1 : -2147483648 ≤ v) (h2 : v < 2147483648)
    (rest : List Nat) :
    toI32s (beI32 v ++ rest) = v :: toI32s rest := by
  simp only [beI32, List.cons_append, List.nil_append, toI32s, i32val]
  have hv : ((v % 4294967296).toNat / 16777216 % 256 % 256 * 256 +
        (v % 4294967296).toNat / 65536 % 256 % 256) * 65536 +
        (v % 4294967296).toNat / 256 % 256 % 256 * 256 +
        (v % 4294967296).toNat % 256 % 256 = (v % 4294967296).toNat := by omega
  rw [hv]
  congr 1
  split
  · omega
  · omega

theorem toI32s_flatMap_beI32 (vals : List Int)
    (h : ∀ v ∈ vals, -2147483648 ≤ v ∧ v < 2147483648) (rest : List Nat) :
    toI32s (vals.flatMap beI32 ++ rest) = vals ++ toI32s rest := by
  induction vals with
  | nil => simp
  | cons v vs ih =>
    rw [List.flatMap_cons, List.append_assoc,
      toI32s_beI32_cons v (h v (by simp)).1 (h v (by simp)).2]
    rw [ih (fun w hw => h w (by simp [hw]))]
    rfl

theorem castI32_range (q : ℚ) :
    -2147483648 ≤ castI32 q ∧ castI32 q < 2147483648 := by
  have hdef : castI32 q =
      if q.num.tdiv (q.den : Int) < -2147483648 then -2147483648
      else if 2147483647 < q.num.tdiv (q.den : Int) then 2147483647
      else q.num.tdiv (q.den : Int) := rfl
  rw [hdef]
  split
  · omega
  · split <;> omega

theorem i16OfU32_range (n : Nat) : -32768 ≤ i16OfU32 n ∧ i16OfU32 n < 32768 := by
  have hdef : i16OfU32 n =
      if 32768 ≤ n % 65536 then ((n % 65536 : Nat) : Int) - 65536
      else ((n % 65536 : Nat) : Int) := rfl
  rw [hdef]
  split <;> omega

theorem u32OfI16_i16OfU32 (n : Nat) (h : n < 32768) :
    u32OfI16 (i16OfU32 n) = n := by
  unfold u32OfI16 i16OfU32
  have hm : n % 65536 = n := Nat.mod_eq_of_lt (by omega)
  rw [hm]
  rw [if_neg (by omega)]
  omega

theorem toF64s_cons8 (l r : List Nat) (h : l.length = 8) :
    toF64s (l ++ r) = gds_real8_to_f64 l :: toF64s r := by
  rcases l with _ | ⟨b0, l⟩
  · simp at h
  rcases l with _ | ⟨b1, l⟩
  · simp at h
  rcases l with _ | ⟨b2, l⟩
  · simp at h
  rcases l with _ | ⟨b3, l⟩
  · simp at h
  rcases l with _ | ⟨b4, l⟩
  · simp at h
  rcases l with _ | ⟨b5, l⟩
  · simp at h
  rcases l with _ | ⟨b6, l⟩
  · simp at h
  rcases l with _ | ⟨b7, l⟩
  · simp at h
  rcases l with _ | ⟨b8, l⟩
  · rfl
  · simp at h

/-! ## String payload round-trip -/

theorem dropWhile_zeros_rev (s : List Nat) (h : s.getLast? ≠ some 0) :
    s.reverse.dropWhile (fun b => b = 0) = s.reverse := by
  cases hs : s.reverse with
  | nil => rfl
  | cons a t =>
    have ha : ¬ (a = 0) := by
      intro h0
      apply h
      rw [← List.head?_reverse, hs, h0]
      rfl
    rw [List.dropWhile_cons_of_neg (by simpa using ha)]

theorem dropTrailZeros_id (s : List Nat) (h : s.getLast? ≠ some 0) :
    dropTrailZeros s = s := by
  unfold dropTrailZeros
  rw [dropWhile_zeros_rev s h, List.reverse_reverse]

theorem dropTrailZeros_pad (s : List Nat) (h : s.getLast? ≠ some 0) :
    dropTrailZeros (s ++ [0]) = s := by
  unfold dropTrailZeros
  rw [List.reverse_append]
  show (((0 : Nat) :: s.reverse).dropWhile (fun b => b = 0)).reverse = s
  rw [List.dropWhile_cons_of_pos (by simp)]
  rw [dropWhile_zeros_rev s h, List.reverse_reverse]

theorem flatMap_utf8_ascii (s : List Nat) (hb : ∀ b ∈ s, b < 128) :
    s.flatMap utf8OfByte = s := by
  induction s with
  | nil => rfl
  | cons b t ih =>
    rw [List.flatMap_cons]
    rw [ih (fun x hx => hb x (by simp [hx]))]
    simp [utf8OfByte, hb b (by simp)]

theorem asString_padEven (s : List Nat) (hb : ∀ b ∈ s, b < 128)
    (hl : s.getLast? ≠ some 0) :
    asString (padEven s) = s := by
  unfold asString padEven
  split
  · rw [dropTrailZeros_pad s hl, flatMap_utf8_ascii s hb]
  · rw [dropTrailZeros_id s hl, flatMap_utf8_ascii s hb]

/-! ## Payload-length helpers -/

theorem length_beI16 (v : Int) : (beI16 v).length = 2 := rfl

theorem length_beI32 (v : Int) : (beI32 v).length = 4 := rfl

theorem len_flatMap_beI16 (vals : List Int) :
    (vals.flatMap beI16).length = 2 * vals.length := by
  induction vals with
  | nil => rfl
  | cons v vs ih => simp [List.flatMap_cons, beI16, beU16, ih]; omega

theorem len_flatMap_beI32 (vals : List Int) :
    (vals.flatMap beI32).length = 4 * vals.length := by
  induction vals with
  | nil => rfl
  | cons v vs ih => simp [List.flatMap_cons, beI32, ih]; omega

theorem toI16s_flatMap_beI16_notail (vals : List Int)
    (h : ∀ v ∈ vals, -32768 ≤ v ∧ v < 32768) :
    toI16s (vals.flatMap beI16) = vals := by
  have hh := toI16s_flatMap_beI16 vals h []
  simpa [show toI16s [] = [] from rfl] using hh

theorem toI32s_flatMap_beI32_notail (vals : List Int)
    (h : ∀ v ∈ vals, -2147483648 ≤ v ∧ v < 2147483648) :
    toI32s (vals.flatMap beI32) = vals := by
  have hh := toI32s_flatMap_beI32 vals h []
  simpa [show toI32s [] = [] from rfl] using hh

theorem toI16s_beI16_single (v : Int) (h1 : -32768 ≤ v) (h2 : v < 32768) :
    toI16s (beI16 v) = [v] := by
  have hh := toI16s_flatMap_beI16_notail [v]
    (by intro x hx; simp at hx; subst hx; exact ⟨h1, h2⟩)
  simpa using hh

theorem toI32s_beI32_single (v : Int) (h1 : -2147483648 ≤ v) (h2 : v < 2147483648) :
    toI32s (beI32 v) = [v] := by
  have hh := toI32s_flatMap_beI32_notail [v]
    (by intro x hx; simp at hx; subst hx; exact ⟨h1, h2⟩)
  simpa using hh

/-! ## Step lemmas for the boundary loop on writer-shaped records -/

theorem boundaryStep_layer (u : ℚ) (f layer : Nat) (pts : List Point) (v : Int)
    (h1 : -32768 ≤ v) (h2 : v < 32768) (rest : List Nat) :
    readBoundaryLoop u (f + 1) layer pts (write_i16_record rtLAYER [v] ++ rest) =
      readBoundaryLoop u f (u32OfI16 v) pts rest := by
  unfold write_i16_record
  simp only [readBoundaryLoop,
    readRecord_encode rtLAYER ([v].flatMap beI16) rest
      (by simp [length_beI16]) (by decide)]
  simp [toI16s_beI16_single v h1 h2, rtLAYER]

theorem boundaryStep_datatype (u : ℚ) (f layer : Nat) (pts : List Point)
    (rest : List Nat) :
    readBoundaryLoop u (f + 1) layer pts (write_i16_record rtDATATYPE [0] ++ rest) =
      readBoundaryLoop u f layer pts rest := by
  unfold write_i16_record
  simp only [readBoundaryLoop,
    readRecord_encode rtDATATYPE ([(0 : Int)].flatMap beI16) rest
      (by simp [length_beI16]) (by decide)]
  simp [rtDATATYPE, rtLAYER, rtXY, rtENDEL]

theorem boundaryStep_xy (u : ℚ) (f layer : Nat) (pts : List Point)
    (vals : List Int) (h : ∀ v ∈ vals, -2147483648 ≤ v ∧ v < 2147483648)
    (hlen : 4 * vals.length + 4 ≤ 65535) (rest : List Nat) :
    readBoundaryLoop u (f + 1) layer pts (write_i32_record rtXY vals ++ rest) =
      readBoundaryLoop u f layer (pts ++ pairsToPoints u vals) rest := by
  unfold write_i32_record
  simp only [readBoundaryLoop,
    readRecord_encode rtXY (vals.flatMap beI32) rest
      (by rw [len_flatMap_beI32]; omega) (by decide)]
  simp [toI32s_flatMap_beI32_notail vals h, rtXY, rtLAYER]

theorem boundaryStep_endel (u : ℚ) (f layer : Nat) (pts : List Point)
    (rest : List Nat) :
    readBoundaryLoop u (f + 1) layer pts (encodeRecord rtENDEL [] ++ rest) =
      some (finishBoundary layer pts, rest) := by
  simp only [readBoundaryLoop,
    readRecord_encode rtENDEL [] rest (by simp) (by decide)]
  simp [rtENDEL, rtLAYER, rtXY]

/-! ## Step lemmas for the path loop -/

theorem pathStep_layer (u : ℚ) (f layer : Nat) (w : ℚ) (pts : List Point) (v : Int)
    (h1 : -32768 ≤ v) (h2 : v < 32768) (rest : List Nat) :
    readPathLoop u (f + 1) layer w pts (write_i16_record rtLAYER [v] ++ rest) =
      readPathLoop u f (u32OfI16 v) w pts rest := by
  unfold write_i16_record
  simp only [readPathLoop,
    readRecord_encode rtLAYER ([v].flatMap beI16) rest
      (by simp [length_beI16]) (by decide)]
  simp [toI16s_beI16_single v h1 h2, rtLAYER]

theorem pathStep_datatype (u : ℚ) (f layer : Nat) (w : ℚ) (pts : List Point)
    (rest : List Nat) :
    readPathLoop u (f + 1) layer w pts (write_i16_record rtDATATYPE [0] ++ rest) =
      readPathLoop u f layer w pts rest := by
  unfold write_i16_record
  simp only [readPathLoop,
    readRecord_encode rtDATATYPE ([(0 : Int)].flatMap beI16) rest
      (by simp [length_beI16]) (by decide)]
  simp [rtDATATYPE, rtLAYER, rtWIDTH, rtXY, rtENDEL]

theorem pathStep_width (u : ℚ) (f layer : Nat) (w : ℚ) (pts : List Point) (v : Int)
    (h1 : -2147483648 ≤ v) (h2 : v < 2147483648) (rest : List Nat) :
    readPathLoop u (f + 1) layer w pts (write_i32_record rtWIDTH [v] ++ rest) =
      readPathLoop u f layer ((v : ℚ) * u) pts rest := by
  unfold write_i32_record
  simp only [readPathLoop,
    readRecord_encode rtWIDTH ([v].flatMap beI32) rest
      (by simp [length_beI32]) (by decide)]
  simp [toI32s_beI32_single v h1 h2, rtWIDTH, rtLAYER]

theorem pathStep_xy (u : ℚ) (f layer : Nat) (w : ℚ) (pts : List Point)
    (vals : List Int) (h : ∀ v ∈ vals, -2147483648 ≤ v ∧ v < 2147483648)
    (hlen : 4 * vals.length + 4 ≤ 65535) (rest : List Nat) :
    readPathLoop u (f + 1) layer w pts (write_i32_record rtXY vals ++ rest) =
      readPathLoop u f layer w (pts ++ pairsToPoints u vals) rest := by
  unfold write_i32_record
  simp only [readPathLoop,
    readRecord_encode rtXY (vals.flatMap beI32) rest
      (by rw [len_flatMap_beI32]; omega) (by decide)]
  simp [toI32s_flatMap_beI32_notail vals h, rtXY, rtLAYER, rtWIDTH]

theorem pathStep_endel (u : ℚ) (f layer : Nat) (w : ℚ) (pts : List Point)
    (rest : List Nat) :
    readPathLoop u (f + 1) layer w pts (encodeRecord rtENDEL [] ++ rest) =
      some (finishPath layer w pts, rest) := by
  simp only [readPathLoop,
    readRecord_encode rtENDEL [] rest (by simp) (by decide)]
  simp [rtENDEL, rtLAYER, rtWIDTH, rtXY]

/-! ## Element-level round trips -/

theorem pairsToPoints_flatMap2 (u : ℚ) (f g : Point → Int) (l : List Point)
    (tail : List Int) :
    pairsToPoints u (l.flatMap (fun q => [f q, g q]) ++ tail) =
      l.map (fun q => (⟨(f q : ℚ) * u, (g q : ℚ) * u⟩ : Point)) ++
        pairsToPoints u tail := by
  induction l with
  | nil => simp
  | cons q l ih =>
    simp only [List.flatMap_cons, List.cons_append, List.nil_append,
      List.append_assoc, List.map_cons]
    rw [show pairsToPoints u
        (f q :: g q :: ((l.flatMap fun q => [f q, g q]) ++ tail)) =
        (⟨(f q : ℚ) * u, (g q : ℚ) * u⟩ : Point) ::
          pairsToPoints u ((l.flatMap fun q => [f q, g q]) ++ tail) from rfl, ih]

theorem pairsToPoints_flatMap2_notail (u : ℚ) (f g : Point → Int)
    (l : List Point) :
    pairsToPoints u (l.flatMap (fun q => [f q, g q])) =
      l.map (fun q => (⟨(f q : ℚ) * u, (g q : ℚ) * u⟩ : Point)) := by
  have hh := pairsToPoints_flatMap2 u f g l []
  simpa [show pairsToPoints u [] = [] from rfl] using hh

theorem length_flatMap_pair (f g : Point → Int) (l : List Point) :
    (l.flatMap fun q => [f q, g q]).length = 2 * l.length := by
  induction l with
  | nil => rfl
  | cons q l ih => simp [List.flatMap_cons, ih]; omega

theorem stripClosing_ne_nil (pts : List Point) (h : 1 ≤ pts.length) :
    stripClosing pts ≠ [] := by
  unfold stripClosing
  split
  · rename_i hc
    have hdl : pts.dropLast.length = pts.length - 1 := List.length_dropLast pts
    intro hnil
    rw [hnil] at hdl
    simp at hdl
    omega
  · intro hnil
    rw [hnil] at h
    simp at h

theorem finishBoundary_layer (layer : LayerId) (pts : List Point)
    (h : stripClosing pts ≠ []) :
    ∃ g, finishBoundary layer pts = some g ∧ g.layer_id = layer := by
  have hemp : (stripClosing pts).isEmpty = false := by
    rcases hsp : stripClosing pts with _ | ⟨p, rps⟩
    · exact absurd hsp h
    · rfl
  by_cases hrect : (stripClosing pts).length = 4 ∧
      is_axis_aligned_rect (stripClosing pts) = true
  · rcases hbb : BBox.from_points (stripClosing pts) with _ | bb
    · exfalso
      rcases hsp : stripClosing pts with _ | ⟨p, rps⟩
      · exact h hsp
      · rw [hsp] at hbb
        simp [BBox.from_points] at hbb
    · refine ⟨.rect (Rect.new layer bb.min.x bb.min.y bb.max.x bb.max.y), ?_, rfl⟩
      simp only [finishBoundary, hemp, Bool.false_eq_true, if_false]
      rw [if_pos hrect, hbb]
  · refine ⟨.polygon (Polygon.new layer (stripClosing pts)), ?_, rfl⟩
    simp only [finishBoundary, hemp, Bool.false_eq_true, if_false]
    rw [if_neg hrect]

theorem finishPath_some (layer : LayerId) (w : ℚ) (pts : List Point)
    (h : pts ≠ []) :
    finishPath layer w pts = some (.path (Path.new layer pts w)) := by
  rcases pts with _ | ⟨p, ps⟩
  · exact absurd rfl h
  · rfl

/-- The scaled XY payload of `write_rect`. -/
def rectCoords (u : ℚ) (r : Rect) : List Int :=
  [castI32 (r.lower_left.x * (1 / u)), castI32 (r.lower_left.y * (1 / u)),
   castI32 (r.upper_right.x * (1 / u)), castI32 (r.lower_left.y * (1 / u)),
   castI32 (r.upper_right.x * (1 / u)), castI32 (r.upper_right.y * (1 / u)),
   castI32 (r.lower_left.x * (1 / u)), castI32 (r.upper_right.y * (1 / u)),
   castI32 (r.lower_left.x * (1 / u)), castI32 (r.lower_left.y * (1 / u))]

/-- The scaled XY payload of `write_polygon` (closed: first vertex repeated). -/
def polyCoords (u : ℚ) (p : Polygon) : List Int :=
  p.vertices.flatMap (fun q => [castI32 (q.x * (1 / u)), castI32 (q.y * (1 / u))]) ++
  (match p.vertices.head? with
   | some q => [castI32 (q.x * (1 / u)), castI32 (q.y * (1 / u))]
   | none => [])

/-- The scaled XY payload of `write_path`. -/
def pathCoords (u : ℚ) (p : Path) : List Int :=
  p.points.flatMap (fun q => [castI32 (q.x * (1 / u)), castI32 (q.y * (1 / u))])

theorem readElem_rect (ur uw : ℚ) (r : Rect) (rest : List Nat) (f : Nat)
    (hl : r.layer_id < 32768) :
    ∃ g, readBoundaryLoop ur (f + 4) 0 [] (rectBody uw r ++ rest) =
        some (some g, rest) ∧ g.layer_id = r.layer_id := by
  have hi16 := i16OfU32_range r.layer_id
  have hrange : ∀ v ∈ rectCoords uw r, -2147483648 ≤ v ∧ v < 2147483648 := by
    intro v hv
    simp [rectCoords] at hv
    rcases hv with rfl|rfl|rfl|rfl|rfl|rfl|rfl|rfl|rfl|rfl <;> exact castI32_range _
  have hchain :
      readBoundaryLoop ur (f + 4) 0 [] (rectBody uw r ++ rest) =
        some (finishBoundary r.layer_id ([] ++ pairsToPoints ur (rectCoords uw r)),
          rest) := by
    rw [show rectBody uw r ++ rest =
        write_i16_record rtLAYER [i16OfU32 r.layer_id] ++
        (write_i16_record rtDATATYPE [0] ++
         (write_i32_record rtXY (rectCoords uw r) ++
          (encodeRecord rtENDEL [] ++ rest))) from by
      simp [rectBody, rectCoords, List.append_assoc]]
    rw [show f + 4 = f + 3 + 1 from rfl,
        boundaryStep_layer ur (f + 3) 0 [] (i16OfU32 r.layer_id) hi16.1 hi16.2]
    rw [show f + 3 = f + 2 + 1 from rfl, boundaryStep_datatype]
    rw [show f + 2 = f + 1 + 1 from rfl,
        boundaryStep_xy ur (f + 1) _ [] (rectCoords uw r) hrange
          (by simp [rectCoords])]
    rw [boundaryStep_endel, u32OfI16_i16OfU32 r.layer_id hl]
  obtain ⟨g, hg, hgl⟩ := finishBoundary_layer r.layer_id
    ([] ++ pairsToPoints ur (rectCoords uw r))
    (stripClosing_ne_nil _ (by simp [rectCoords, pairsToPoints]))
  exact ⟨g, by rw [hchain, hg], hgl⟩

theorem readElem_poly (ur uw : ℚ) (p : Polygon) (rest : List Nat) (f : Nat)
    (hl : p.layer_id < 32768) (hne : p.vertices ≠ [])
    (hvl : p.vertices.length ≤ 8190) :
    ∃ g, readBoundaryLoop ur (f + 4) 0 [] (polyBody uw p ++ rest) =
        some (some g, rest) ∧ g.layer_id = p.layer_id := by
  rcases hvs : p.vertices with _ | ⟨v0, vs⟩
  · exact absurd hvs hne
  have hi16 := i16OfU32_range p.layer_id
  have hrange : ∀ v ∈ polyCoords uw p, -2147483648 ≤ v ∧ v < 2147483648 := by
    intro v hv
    rcases List.mem_append.mp ((by unfold polyCoords at hv; exact hv) :
        v ∈ p.vertices.flatMap
          (fun q => [castI32 (q.x * (1 / uw)), castI32 (q.y * (1 / uw))]) ++
        (match p.vertices.head? with
         | some q => [castI32 (q.x * (1 / uw)), castI32 (q.y * (1 / uw))]
         | none => [])) with hv | hv
    · rcases List.mem_flatMap.mp hv with ⟨q, _, hq⟩
      simp at hq
      rcases hq with rfl | rfl <;> exact castI32_range _
    · rw [hvs] at hv
      simp at hv
      rcases hv with rfl | rfl <;> exact castI32_range _
  have hclen : (polyCoords uw p).length = 2 * p.vertices.length + 2 := by
    unfold polyCoords
    rw [hvs, List.length_append, length_flatMap_pair]
    simp only [List.head?_cons, List.length_cons, List.length_nil]
  have hchain :
      readBoundaryLoop ur (f + 4) 0 [] (polyBody uw p ++ rest) =
        some (finishBoundary p.layer_id ([] ++ pairsToPoints ur (polyCoords uw p)),
          rest) := by
    rw [show polyBody uw p ++ rest =
        write_i16_record rtLAYER [i16OfU32 p.layer_id] ++
        (write_i16_record rtDATATYPE [0] ++
         (write_i32_record rtXY (polyCoords uw p) ++
          (encodeRecord rtENDEL [] ++ rest))) from by
      simp [polyBody, polyCoords, List.append_assoc]]
    rw [show f + 4 = f + 3 + 1 from rfl,
        boundaryStep_layer ur (f + 3) 0 [] (i16OfU32 p.layer_id) hi16.1 hi16.2]
    rw [show f + 3 = f + 2 + 1 from rfl, boundaryStep_datatype]
    rw [show f + 2 = f + 1 + 1 from rfl,
        boundaryStep_xy ur (f + 1) _ [] (polyCoords uw p) hrange (by omega)]
    rw [boundaryStep_endel, u32OfI16_i16OfU32 p.layer_id hl]
  have hpts : 1 ≤ ([] ++ pairsToPoints ur (polyCoords uw p)).length := by
    unfold polyCoords
    rw [hvs]
    simp only [List.head?_cons, List.nil_append]
    rw [pairsToPoints_flatMap2]
    simp [pairsToPoints]
  obtain ⟨g, hg, hgl⟩ := finishBoundary_layer p.layer_id
    ([] ++ pairsToPoints ur (polyCoords uw p)) (stripClosing_ne_nil _ hpts)
  exact ⟨g, by rw [hchain, hg], hgl⟩

theorem readElem_path (ur uw : ℚ) (p : Path) (rest : List Nat) (f : Nat)
    (hl : p.layer_id < 32768) (hne : p.points ≠ [])
    (hpl : p.points.length ≤ 8191) :
    ∃ g, readPathLoop ur (f + 5) 0 0 [] (pathBody uw p ++ rest) =
        some (some g, rest) ∧ g.layer_id = p.layer_id := by
  have hi16 := i16OfU32_range p.layer_id
  have hw := castI32_range (p.width * (1 / uw))
  have hrange : ∀ v ∈ pathCoords uw p, -2147483648 ≤ v ∧ v < 2147483648 := by
    intro v hv
    rcases List.mem_flatMap.mp hv with ⟨q, _, hq⟩
    simp at hq
    rcases hq with rfl | rfl <;> exact castI32_range _
  have hclen : (pathCoords uw p).length = 2 * p.points.length := by
    unfold pathCoords
    exact length_flatMap_pair _ _ _
  have hchain :
      readPathLoop ur (f + 5) 0 0 [] (pathBody uw p ++ rest) =
        some (finishPath p.layer_id ((castI32 (p.width * (1 / uw)) : ℚ) * ur)
          ([] ++ pairsToPoints ur (pathCoords uw p)), rest) := by
    rw [show pathBody uw p ++ rest =
        write_i16_record rtLAYER [i16OfU32 p.layer_id] ++
        (write_i16_record rtDATATYPE [0] ++
         (write_i32_record rtWIDTH [castI32 (p.width * (1 / uw))] ++
          (write_i32_record rtXY (pathCoords uw p) ++
           (encodeRecord rtENDEL [] ++ rest)))) from by
      simp [pathBody, pathCoords, List.append_assoc]]
    rw [show f + 5 = f + 4 + 1 from rfl,
        pathStep_layer ur (f + 4) 0 0 [] (i16OfU32 p.layer_id) hi16.1 hi16.2]
    rw [show f + 4 = f + 3 + 1 from rfl, pathStep_datatype]
    rw [show f + 3 = f + 2 + 1 from rfl,
        pathStep_width ur (f + 2) _ 0 [] (castI32 (p.width * (1 / uw))) hw.1 hw.2]
    rw [show f + 2 = f + 1 + 1 from rfl,
        pathStep_xy ur (f + 1) _ _ [] (pathCoords uw p) hrange (by omega)]
    rw [pathStep_endel, u32OfI16_i16OfU32 p.layer_id hl]
  have hpts : ([] ++ pairsToPoints ur (pathCoords uw p)) ≠ [] := by
    unfold pathCoords
    rw [pairsToPoints_flatMap2_notail]
    rcases hps : p.points with _ | ⟨q, qs⟩
    · exact absurd hps hne
    · simp
  refine ⟨.path (Path.new p.layer_id ([] ++ pairsToPoints ur (pathCoords uw p))
      ((castI32 (p.width * (1 / uw)) : ℚ) * ur)), ?_, rfl⟩
  rw [hchain, finishPath_some _ _ _ hpts]

/-! ## One structure-loop step per written geometry -/

theorem sum_map_length_beI32 (l : List Int) :
    (l.map (List.length ∘ beI32)).sum = 4 * l.length := by
  induction l with
  | nil => rfl
  | cons v vs ih => simp [Function.comp, length_beI32, ih]; omega

theorem length_rectBody (uw : ℚ) (r : Rect) : (rectBody uw r).length = 60 := by
  rw [show rectBody uw r =
      write_i16_record rtLAYER [i16OfU32 r.layer_id] ++
      (write_i16_record rtDATATYPE [0] ++
       (write_i32_record rtXY (rectCoords uw r) ++ encodeRecord rtENDEL [])) from by
    simp [rectBody, rectCoords, List.append_assoc]]
  simp [write_i16_record, write_i32_record, length_encodeRecord,
    length_beI16, length_beI32, rectCoords]

theorem length_polyBody (uw : ℚ) (p : Polygon) :
    (polyBody uw p).length = 4 * (polyCoords uw p).length + 20 := by
  rw [show polyBody uw p =
      write_i16_record rtLAYER [i16OfU32 p.layer_id] ++
      (write_i16_record rtDATATYPE [0] ++
       (write_i32_record rtXY (polyCoords uw p) ++ encodeRecord rtENDEL [])) from by
    simp [polyBody, polyCoords, List.append_assoc]]
  simp [write_i16_record, write_i32_record, length_encodeRecord,
    length_beI16, length_beI32, sum_map_length_beI32]
  omega

theorem length_pathBody (uw : ℚ) (p : Path) :
    (pathBody uw p).length = 4 * (pathCoords uw p).length + 28 := by
  rw [show pathBody uw p =
      write_i16_record rtLAYER [i16OfU32 p.layer_id] ++
      (write_i16_record rtDATATYPE [0] ++
       (write_i32_record rtWIDTH [castI32 (p.width * (1 / uw))] ++
        (write_i32_record rtXY (pathCoords uw p) ++ encodeRecord rtENDEL []))) from by
    simp [pathBody, pathCoords, List.append_assoc]]
  simp [write_i16_record, write_i32_record, length_encodeRecord,
    length_beI16, length_beI32, sum_map_length_beI32]
  omega

theorem structStep_geom (ur uw : ℚ) (fuel : Nat) (cell : Cell) (g : GeomPrimitive)
    (hg : wfGeom g) (rest : List Nat) :
    ∃ g2, readStructLoop ur (fuel + 1) cell (write_geom uw g ++ rest) =
        readStructLoop ur fuel (cell.add_geometry g2) rest ∧
      g2.layer_id = g.layer_id := by
  cases g with
  | rect r =>
    have hl : r.layer_id < 32768 := hg
    obtain ⟨g2, hg2, hl2⟩ := readElem_rect ur uw r rest (56 + rest.length) hl
    refine ⟨g2, ?_, hl2⟩
    rw [show write_geom uw (.rect r) ++ rest =
        encodeRecord rtBOUNDARY [] ++ (rectBody uw r ++ rest) from by
      simp [write_geom, write_rect, List.append_assoc]]
    simp only [readStructLoop,
      readRecord_encode rtBOUNDARY [] (rectBody uw r ++ rest) (by simp) (by decide)]
    simp [rtBOUNDARY, rtSTRNAME, rtPATH, rtSREF, rtBOX, rtTEXT, rtNODE, rtAREF,
      rtENDSTR]
    rw [length_rectBody,
      show (60 : Nat) + rest.length = 56 + rest.length + 4 from by omega, hg2]
  | polygon p =>
    obtain ⟨hl, hne, hvl⟩ := hg
    obtain ⟨g2, hg2, hl2⟩ :=
      readElem_poly ur uw p rest (4 * (polyCoords uw p).length + 16 + rest.length) hl hne hvl
    refine ⟨g2, ?_, hl2⟩
    rw [show write_geom uw (.polygon p) ++ rest =
        encodeRecord rtBOUNDARY [] ++ (polyBody uw p ++ rest) from by
      simp [write_geom, write_polygon, List.append_assoc]]
    simp only [readStructLoop,
      readRecord_encode rtBOUNDARY [] (polyBody uw p ++ rest) (by simp) (by decide)]
    simp [rtBOUNDARY, rtSTRNAME, rtPATH, rtSREF, rtBOX, rtTEXT, rtNODE, rtAREF,
      rtENDSTR]
    rw [length_polyBody,
      show 4 * (polyCoords uw p).length + 20 + rest.length =
        4 * (polyCoords uw p).length + 16 + rest.length + 4 from by omega, hg2]
  | path p =>
    obtain ⟨hl, hne, hpl⟩ := hg
    obtain ⟨g2, hg2, hl2⟩ :=
      readElem_path ur uw p rest (4 * (pathCoords uw p).length + 23 + rest.length) hl hne hpl
    refine ⟨g2, ?_, hl2⟩
    rw [show write_geom uw (.path p) ++ rest =
        encodeRecord rtPATH [] ++ (pathBody uw p ++ rest) from by
      simp [write_geom, write_path, List.append_assoc]]
    simp only [readStructLoop,
      readRecord_encode rtPATH [] (pathBody uw p ++ rest) (by simp) (by decide)]
    simp [rtBOUNDARY, rtSTRNAME, rtPATH, rtSREF, rtBOX, rtTEXT, rtNODE, rtAREF,
      rtENDSTR]
    rw [length_pathBody,
      show 4 * (pathCoords uw p).length + 28 + rest.length =
        4 * (pathCoords uw p).length + 23 + rest.length + 5 from by omega, hg2]
  | via v => exact hg.elim

/-! ## Running the structure loop over a written cell -/

theorem structLoop_geoms (ur uw : ℚ) (gs : List GeomPrimitive) (cell : Cell)
    (rest : List Nat) (f : Nat) (hgs : ∀ g ∈ gs, wfGeom g) :
    ∃ gs2 : List GeomPrimitive, readStructLoop ur (f + gs.length) cell
        (gs.flatMap (write_geom uw) ++ rest) =
        readStructLoop ur f (gs2.foldl Cell.add_geometry cell) rest ∧
      gs2.map GeomPrimitive.layer_id = gs.map GeomPrimitive.layer_id := by
  induction gs generalizing cell with
  | nil => exact ⟨[], by simp, rfl⟩
  | cons g gs ih =>
    obtain ⟨g2, hstep, hl2⟩ := structStep_geom ur uw (f + gs.length) cell g
      (hgs g (by simp)) (gs.flatMap (write_geom uw) ++ rest)
    obtain ⟨gs2, hrec, hmap⟩ := ih (cell.add_geometry g2)
      (fun x hx => hgs x (by simp [hx]))
    refine ⟨g2 :: gs2, ?_, by simp [hmap, hl2]⟩
    rw [show (g :: gs).flatMap (write_geom uw) ++ rest =
        write_geom uw g ++ (gs.flatMap (write_geom uw) ++ rest) from by
      simp [List.flatMap_cons, List.append_assoc]]
    rw [show f + (g :: gs).length = (f + gs.length) + 1 from rfl, hstep, hrec]
    rfl

theorem length_padEven (sb : List Nat) : (padEven sb).length ≤ sb.length + 1 := by
  unfold padEven
  split <;> simp

theorem structStep_strname (ur : ℚ) (f : Nat) (cell : Cell) (nm : List Nat)
    (R : List Nat) (hlen : nm.length ≤ 65530) :
    readStructLoop ur (f + 1) cell (write_string_record rtSTRNAME nm ++ R) =
      readStructLoop ur f { cell with name := asString (padEven nm) } R := by
  unfold write_string_record
  have hp := length_padEven nm
  simp only [readStructLoop,
    readRecord_encode rtSTRNAME (padEven nm) R (by omega) (by decide)]
  simp [rtSTRNAME]

theorem structStep_endstr (ur : ℚ) (f : Nat) (cell : Cell) (rest : List Nat) :
    readStructLoop ur (f + 1) cell (encodeRecord rtENDSTR [] ++ rest) =
      some (cell, rest) := by
  simp only [readStructLoop,
    readRecord_encode rtENDSTR [] rest (by simp) (by decide)]
  simp [rtSTRNAME, rtBOUNDARY, rtPATH, rtSREF, rtBOX, rtTEXT, rtNODE, rtAREF,
    rtENDSTR]

theorem foldl_addg_name (gs : List GeomPrimitive) (cell : Cell) :
    (gs.foldl Cell.add_geometry cell).name = cell.name := by
  induction gs generalizing cell with
  | nil => rfl
  | cons g gs ih => simp [List.foldl_cons, ih, Cell.add_geometry]

theorem foldl_addg_id (gs : List GeomPrimitive) (cell : Cell) :
    (gs.foldl Cell.add_geometry cell).id = cell.id := by
  induction gs generalizing cell with
  | nil => rfl
  | cons g gs ih => simp [List.foldl_cons, ih, Cell.add_geometry]

theorem foldl_addg_instances (gs : List GeomPrimitive) (cell : Cell) :
    (gs.foldl Cell.add_geometry cell).instances = cell.instances := by
  induction gs generalizing cell with
  | nil => rfl
  | cons g gs ih => simp [List.foldl_cons, ih, Cell.add_geometry]

theorem foldl_addg_geoms (gs : List GeomPrimitive) (cell : Cell) :
    (gs.foldl Cell.add_geometry cell).geometries = cell.geometries ++ gs := by
  induction gs generalizing cell with
  | nil => simp
  | cons g gs ih => simp [List.foldl_cons, ih, Cell.add_geometry]

theorem readStruct_writeCellTail (ur uw : ℚ) (f : Nat) (cell0 c : Cell)
    (rest : List Nat) (hname : wfName c.name)
    (hgs : ∀ g ∈ c.geometries, wfGeom g) :
    ∃ res, readStructLoop ur (f + (c.geometries.length + 2)) cell0
        (write_string_record rtSTRNAME c.name ++
         (c.geometries.flatMap (write_geom uw) ++
          (encodeRecord rtENDSTR [] ++ rest))) = some (res, rest) ∧
      res.name = c.name ∧
      res.geometries.map GeomPrimitive.layer_id =
        cell0.geometries.map GeomPrimitive.layer_id ++
          c.geometries.map GeomPrimitive.layer_id ∧
      res.id = cell0.id ∧ res.instances = cell0.instances := by
  rw [show f + (c.geometries.length + 2) = ((f + 1) + c.geometries.length) + 1 from
    by omega]
  rw [structStep_strname ur ((f + 1) + c.geometries.length) cell0 c.name _ hname.2.2]
  rw [asString_padEven c.name hname.1 hname.2.1]
  obtain ⟨gs2, hrun, hmap⟩ := structLoop_geoms ur uw c.geometries
    { cell0 with name := c.name } (encodeRecord rtENDSTR [] ++ rest) (f + 1) hgs
  rw [hrun, structStep_endstr]
  refine ⟨gs2.foldl Cell.add_geometry { cell0 with name := c.name },
    rfl, ?_, ?_, ?_, ?_⟩
  · rw [foldl_addg_name]
  · rw [foldl_addg_geoms]
    simp [hmap]
  · rw [foldl_addg_id]
  · rw [foldl_addg_instances]

/-! ## Library-loop steps over the written stream -/

theorem one_le_length_write_geom (uw : ℚ) (g : GeomPrimitive) :
    1 ≤ (write_geom uw g).length := by
  cases g <;>
    simp [write_geom, write_rect, write_polygon, write_path, write_via,
      length_encodeRecord, List.length_append] <;>
    omega

theorem le_length_flatMap_write_geom (uw : ℚ) (gs : List GeomPrimitive) :
    gs.length ≤ (gs.flatMap (write_geom uw)).length := by
  induction gs with
  | nil => simp
  | cons g gs ih =>
    have h1 := one_le_length_write_geom uw g
    simp only [List.flatMap_cons, List.length_append, List.length_cons]
    omega

theorem one_le_length_write_cell (uw : ℚ) (c : Cell) :
    1 ≤ (write_cell uw c).length := by
  simp [write_cell, write_i16_record, length_encodeRecord, List.length_append]
  omega

theorem le_length_flatMap_write_cell (uw : ℚ) (cs : List (CellId × Cell)) :
    cs.length ≤ (cs.flatMap (fun p => write_cell uw p.2)).length := by
  induction cs with
  | nil => simp
  | cons p cs ih =>
    have h1 := one_le_length_write_cell uw p.2
    simp only [List.flatMap_cons, List.length_append, List.length_cons]
    omega

theorem libStep_bgnstr (f : Nat) (db : LayoutDatabase) (u : ℚ) (tail : List Nat) :
    readLibLoop (f + 1) db u (write_i16_record rtBGNSTR gdsTimestamp ++ tail) =
      match readStructLoop u tail.length (Cell.new db.cells.length unnamedBytes)
          tail with
      | some (cell, rest2) => readLibLoop f (db.add_cell cell).2 u rest2
      | none => none := by
  unfold write_i16_record
  simp only [readLibLoop,
    readRecord_encode rtBGNSTR (gdsTimestamp.flatMap beI16) tail
      (by simp [gdsTimestamp, length_beI16]) (by decide)]
  simp [rtBGNLIB, rtLIBNAME, rtUNITS, rtBGNSTR]

theorem add_cell_fresh (db : LayoutDatabase) (c : Cell)
    (hfresh : ∀ p ∈ db.cells, p.1 ≠ c.id) :
    (db.add_cell c).2.cells = db.cells ++ [(c.id, c)] ∧
      (db.add_cell c).2.name = db.name := by
  have hany : db.cells.any (fun p => p.1 = c.id) = false := by
    rw [List.any_eq_false]
    intro p hp
    simpa using hfresh p hp
  constructor <;> simp [LayoutDatabase.add_cell, hany]

theorem libStep_cell (ur uw : ℚ) (f : Nat) (db : LayoutDatabase) (c : Cell)
    (rest : List Nat) (hc : wfCell c)
    (hkeys : ∀ p ∈ db.cells, p.1 < db.cells.length) :
    ∃ res : Cell, readLibLoop (f + 1) db ur (write_cell uw c ++ rest) =
        readLibLoop f (db.add_cell res).2 ur rest ∧
      res.name = c.name ∧
      res.geometries.map GeomPrimitive.layer_id =
        c.geometries.map GeomPrimitive.layer_id ∧
      (db.add_cell res).2.cells = db.cells ++ [(res.id, res)] ∧
      (db.add_cell res).2.name = db.name ∧
      res.id = db.cells.length := by
  obtain ⟨hname, hinst, hgs⟩ := hc
  rw [show write_cell uw c ++ rest =
      write_i16_record rtBGNSTR gdsTimestamp ++
      (write_string_record rtSTRNAME c.name ++
       (c.geometries.flatMap (write_geom uw) ++
        (encodeRecord rtENDSTR [] ++ rest))) from by
    simp [write_cell, hinst, List.append_assoc]]
  rw [libStep_bgnstr]
  have hge := le_length_flatMap_write_geom uw c.geometries
  have hlen2 : c.geometries.length + 2 ≤ (write_string_record rtSTRNAME c.name ++
      (c.geometries.flatMap (write_geom uw) ++
       (encodeRecord rtENDSTR [] ++ rest))).length := by
    simp only [List.length_append, write_string_record, length_encodeRecord]
    omega
  obtain ⟨F, hF⟩ : ∃ F, (write_string_record rtSTRNAME c.name ++
      (c.geometries.flatMap (write_geom uw) ++
       (encodeRecord rtENDSTR [] ++ rest))).length =
      F + (c.geometries.length + 2) :=
    ⟨(write_string_record rtSTRNAME c.name ++
      (c.geometries.flatMap (write_geom uw) ++
       (encodeRecord rtENDSTR [] ++ rest))).length - (c.geometries.length + 2),
     by omega⟩
  rw [hF]
  obtain ⟨res, hres, hn, hg, hid, hinst2⟩ := readStruct_writeCellTail ur uw F
    (Cell.new db.cells.length unnamedBytes) c rest hname hgs
  rw [hres]
  have hid' : res.id = db.cells.length := hid
  have hfresh := add_cell_fresh db res (by
    intro p hp h2
    have h1 := hkeys p hp
    rw [h2, hid'] at h1
    exact lt_irrefl _ h1)
  exact ⟨res, rfl, hn, by rw [hg]; simp [Cell.new], hfresh.1, hfresh.2, hid'⟩

theorem libLoop_cells (ur uw : ℚ) (cs : List (CellId × Cell)) (db : LayoutDatabase)
    (rest : List Nat) (f : Nat) (hcs : ∀ p ∈ cs, wfCell p.2)
    (hkeys : ∀ p ∈ db.cells, p.1 < db.cells.length) :
    ∃ db2 : LayoutDatabase,
      readLibLoop (f + cs.length) db ur
          (cs.flatMap (fun p => write_cell uw p.2) ++ rest) =
        readLibLoop f db2 ur rest ∧
      db2.cells.map (fun p => p.2.name) =
        db.cells.map (fun p => p.2.name) ++ cs.map (fun p => p.2.name) ∧
      db2.cells.map (fun p => p.2.geometries.map GeomPrimitive.layer_id) =
        db.cells.map (fun p => p.2.geometries.map GeomPrimitive.layer_id) ++
          cs.map (fun p => p.2.geometries.map GeomPrimitive.layer_id) ∧
      db2.name = db.name := by
  induction cs generalizing db with
  | nil => exact ⟨db, by simp, by simp, by simp, rfl⟩
  | cons p cs ih =>
    obtain ⟨res, hstep, hn, hg, hcells, hname2, hid⟩ := libStep_cell ur uw
      (f + cs.length) db p.2 (cs.flatMap (fun q => write_cell uw q.2) ++ rest)
      (hcs p (by simp)) hkeys
    have hkeys' : ∀ q ∈ (db.add_cell res).2.cells,
        q.1 < (db.add_cell res).2.cells.length := by
      rw [hcells]
      intro q hq
      rw [List.length_append]
      rcases List.mem_append.mp hq with hq | hq
      · exact lt_of_lt_of_le (hkeys q hq) (Nat.le_add_right _ _)
      · simp only [List.mem_singleton] at hq
        rw [hq]
        show res.id < db.cells.length + [(res.id, res)].length
        rw [hid]
        simp only [List.length_singleton]
        exact Nat.lt_succ_self _
    obtain ⟨db2, hrec, hn2, hg2, hnm2⟩ := ih (db.add_cell res).2
      (fun q hq => hcs q (by simp [hq])) hkeys'
    refine ⟨db2, ?_, ?_, ?_, ?_⟩
    · rw [show (p :: cs).flatMap (fun q => write_cell uw q.2) ++ rest =
          write_cell uw p.2 ++ (cs.flatMap (fun q => write_cell uw q.2) ++ rest) from by
        simp [List.flatMap_cons, List.append_assoc]]
      rw [show f + (p :: cs).length = (f + cs.length) + 1 from rfl, hstep, hrec]
    · rw [hn2, hcells]
      simp [hn]
    · rw [hg2, hcells]
      simp [hg]
    · rw [hnm2, hname2]

/-! ## The written library prefix -/

theorem readGds_header (R : List Nat) :
    readGds (write_i16_record rtHEADER [600] ++ R) =
      readLibLoop R.length (LayoutDatabase.mkNew 0 importedBytes) (1 / 1000) R := by
  unfold write_i16_record readGds
  rw [readRecord_encode rtHEADER ([(600 : Int)].flatMap beI16) R
    (by simp [length_beI16]) (by decide)]
  simp [rtHEADER]

theorem libStep_bgnlib (f : Nat) (db : LayoutDatabase) (u : ℚ) (rest : List Nat) :
    readLibLoop (f + 1) db u (write_i16_record rtBGNLIB gdsTimestamp ++ rest) =
      readLibLoop f db u rest := by
  unfold write_i16_record
  simp only [readLibLoop,
    readRecord_encode rtBGNLIB (gdsTimestamp.flatMap beI16) rest
      (by simp [gdsTimestamp, length_beI16]) (by decide)]
  simp [rtBGNLIB]

theorem libStep_libname (f : Nat) (db : LayoutDatabase) (u : ℚ) (nm : List Nat)
    (rest : List Nat) (hlen : nm.length ≤ 65530) :
    readLibLoop (f + 1) db u (write_string_record rtLIBNAME nm ++ rest) =
      readLibLoop f { db with name := asString (padEven nm) } u rest := by
  unfold write_string_record
  have hp := length_padEven nm
  simp only [readLibLoop,
    readRecord_encode rtLIBNAME (padEven nm) rest (by omega) (by decide)]
  simp [rtBGNLIB, rtLIBNAME]

theorem libStep_units (f : Nat) (db : LayoutDatabase) (u a b : ℚ)
    (rest : List Nat) :
    readLibLoop (f + 1) db u (write_real8_record rtUNITS [a, b] ++ rest) =
      readLibLoop f db (gds_real8_to_f64 (f64_to_gds_real8 a) * 1000000) rest := by
  unfold write_real8_record
  have h2 : toF64s (f64_to_gds_real8 b) =
      [gds_real8_to_f64 (f64_to_gds_real8 b)] := by
    have hh := toF64s_cons8 (f64_to_gds_real8 b) [] (length_f64_to_gds_real8 b)
    simpa [show toF64s [] = [] from rfl] using hh
  have h1 : toF64s (f64_to_gds_real8 a ++ f64_to_gds_real8 b) =
      gds_real8_to_f64 (f64_to_gds_real8 a) ::
        (gds_real8_to_f64 (f64_to_gds_real8 b) :: []) := by
    rw [toF64s_cons8 _ _ (length_f64_to_gds_real8 a), h2]
  simp only [readLibLoop,
    readRecord_encode rtUNITS ([a, b].flatMap f64_to_gds_real8) rest
      (by simp [length_f64_to_gds_real8]) (by decide)]
  simp [rtBGNLIB, rtLIBNAME, rtUNITS, h1]

theorem libStep_endlib (f : Nat) (db : LayoutDatabase) (u : ℚ)
    (rest : List Nat) :
    readLibLoop (f + 1) db u (encodeRecord rtENDLIB [] ++ rest) = some db := by
  simp only [readLibLoop,
    readRecord_encode rtENDLIB [] rest (by simp) (by decide)]
  simp [rtBGNLIB, rtLIBNAME, rtUNITS, rtBGNSTR, rtENDLIB]

/-- C2 (amended): for a database whose cells hold only `Rect`/`Polygon`/
`Path` geometry with nonempty point lists that fit in one GDS record and
i16-representable layer ids, no instances, and record-safe ASCII names,
`GdsWriter::write` followed by `GdsReader::read` succeeds and preserves the
cell count, the cell name sequence, and each cell's geometry count and
layer-id sequence exactly. -/
theorem c2_gds_roundtrip (db : LayoutDatabase) (h : wfDb db) :
    ∃ db2 : LayoutDatabase, readGds (writeGds db) = some db2 ∧
      db2.cells.length = db.cells.length ∧
      db2.cells.map (fun p => p.2.name) = db.cells.map (fun p => p.2.name) ∧
      db2.cells.map (fun p => p.2.geometries.length) =
        db.cells.map (fun p => p.2.geometries.length) ∧
      db2.cells.map (fun p => p.2.geometries.map GeomPrimitive.layer_id) =
        db.cells.map (fun p => p.2.geometries.map GeomPrimitive.layer_id) := by
  obtain ⟨hb, hnl, hcs⟩ := h
  rw [show writeGds db = write_i16_record rtHEADER [600] ++
      (write_i16_record rtBGNLIB gdsTimestamp ++
       (write_string_record rtLIBNAME db.name ++
        (write_real8_record rtUNITS
          [(1 / 1000 : ℚ) * (1 / 1000), (1 / 1000 : ℚ) * (1 / 1000000)] ++
         (db.cells.flatMap (fun p => write_cell (1 / 1000) p.2) ++
          encodeRecord rtENDLIB [])))) from rfl]
  rw [readGds_header]
  have hge := le_length_flatMap_write_cell (1 / 1000) db.cells
  have hbound : db.cells.length + 4 ≤ (write_i16_record rtBGNLIB gdsTimestamp ++
      (write_string_record rtLIBNAME db.name ++
       (write_real8_record rtUNITS
         [(1 / 1000 : ℚ) * (1 / 1000), (1 / 1000 : ℚ) * (1 / 1000000)] ++
        (db.cells.flatMap (fun p => write_cell (1 / 1000) p.2) ++
         encodeRecord rtENDLIB [])))).length := by
    simp only [List.length_append, length_encodeRecord, List.length_nil]
    omega
  obtain ⟨F, hRlen⟩ : ∃ F, (write_i16_record rtBGNLIB gdsTimestamp ++
      (write_string_record rtLIBNAME db.name ++
       (write_real8_record rtUNITS
         [(1 / 1000 : ℚ) * (1 / 1000), (1 / 1000 : ℚ) * (1 / 1000000)] ++
        (db.cells.flatMap (fun p => write_cell (1 / 1000) p.2) ++
         encodeRecord rtENDLIB [])))).length =
      ((((F + 1) + db.cells.length) + 1) + 1) + 1 :=
    ⟨(write_i16_record rtBGNLIB gdsTimestamp ++
      (write_string_record rtLIBNAME db.name ++
       (write_real8_record rtUNITS
         [(1 / 1000 : ℚ) * (1 / 1000), (1 / 1000 : ℚ) * (1 / 1000000)] ++
        (db.cells.flatMap (fun p => write_cell (1 / 1000) p.2) ++
         encodeRecord rtENDLIB [])))).length - (db.cells.length + 4), by omega⟩
  rw [hRlen, libStep_bgnlib, libStep_libname _ _ _ _ _ hnl, libStep_units]
  obtain ⟨db2, hrec, hn2, hg2, hnm2⟩ := libLoop_cells
    (gds_real8_to_f64 (f64_to_gds_real8 ((1 / 1000 : ℚ) * (1 / 1000))) * 1000000)
    (1 / 1000) db.cells
    { LayoutDatabase.mkNew 0 importedBytes with name := asString (padEven db.name) }
    (encodeRecord rtENDLIB []) (F + 1) hcs
    (by intro p hp; simp [LayoutDatabase.mkNew] at hp)
  rw [hrec,
    show encodeRecord rtENDLIB [] = encodeRecord rtENDLIB [] ++ [] from
      (List.append_nil _).symm,
    libStep_endlib]
  simp only [LayoutDatabase.mkNew, List.map_nil, List.nil_append] at hn2 hg2
  refine ⟨db2, rfl, ?_, hn2, ?_, hg2⟩
  · have hlen := congrArg List.length hn2
    simpa using hlen
  · have hcnt := congrArg (List.map List.length) hg2
    simpa [List.map_map, Function.comp_def] using hcnt

/-- A concrete well-formed database: two cells `TOP` and `SUB` holding a
rectangle, a triangle polygon and a two-point path. -/
def cellW1 : Cell :=
  ⟨0, [84, 79, 80],
   [.rect (Rect.new 1 0 0 10 10),
    .polygon (Polygon.new 2 [⟨0, 0⟩, ⟨4, 1⟩, ⟨2, 5⟩]),
    .path (Path.new 7 [⟨0, 0⟩, ⟨10, 0⟩] 2)], [], [], false⟩

def cellW2 : Cell :=
  ⟨1, [83, 85, 66], [.rect (Rect.new 5 (-3) (-3) 3 3)], [], [], false⟩

def dbW : LayoutDatabase :=
  ⟨7, [76, 73, 66], LayerStack.new, [(0, cellW1), (1, cellW2)], some 0,
   CommandHistory.new, 1⟩

theorem c2_gds_roundtrip_witness :
    wfDb dbW ∧
    ∃ db2 : LayoutDatabase, readGds (writeGds dbW) = some db2 ∧
      db2.cells.length = dbW.cells.length ∧
      db2.cells.map (fun p => p.2.name) = dbW.cells.map (fun p => p.2.name) ∧
      db2.cells.map (fun p => p.2.geometries.length) =
        dbW.cells.map (fun p => p.2.geometries.length) ∧
      db2.cells.map (fun p => p.2.geometries.map GeomPrimitive.layer_id) =
        dbW.cells.map (fun p => p.2.geometries.map GeomPrimitive.layer_id) :=
  ⟨by decide, c2_gds_roundtrip dbW (by decide)⟩

/-- A database inside the scope of claim C2 as stated (only `Polygon`
geometry, no vias, no instances) whose empty polygon is dropped by the
round trip. -/
def cellEP : Cell := ⟨0, [67], [.polygon (Polygon.new 2 [])], [], [], false⟩

def dbEP : LayoutDatabase :=
  ⟨8, [76], LayerStack.new, [(0, cellEP)], some 0, CommandHistory.new, 1⟩

set_option maxRecDepth 100000 in
unseal Rat.mul Rat.inv Rat.add Rat.sub in
/-- Counterexample to C2 as stated: the writer emits an XY record with no
points for a vertexless polygon, the reader strips nothing, finds an empty
boundary and drops it, so the per-cell geometry count 1 becomes 0. -/
theorem c2_roundtrip_counterexample :
    (readGds (writeGds dbEP)).map
        (fun d => d.cells.map (fun p => p.2.geometries.length)) = some [0] ∧
    dbEP.cells.map (fun p => p.2.geometries.length) = [1] := by
  constructor
  · decide
  · decide

end Marcellus
